import Mathlib

/-!
# fizzbuzz-api: a shallow embedding of `main.go` and proofs about it

The Go program serves two HTTP endpoints on a Cloudflare worker:
`POST /api/fizzbuzz` computes a parameterised FizzBuzz sequence and counts the
request in a key-value namespace, `GET /api/stats` scans that namespace for the
most frequent request.

Modelling conventions.

* Go `int` is the 64-bit signed integer of the `js/wasm` target, represented by an
  `Int` between `minInt` and `maxInt`.  The two additions the program performs on
  `int`s, the loop increment `i++` and `count+1`, wrap around (`wrapInt`);
  `strconv.Atoi` saturates at the bounds with a range error.
* Go `string` is `String` (the strings that reach the program come out of the
  JSON decoder, hence are valid UTF-8).
* A Go call returning `(value, error)` whose error the caller discards is a pair
  `value × Option Error`; one whose error the caller checks is an `Except`.
* Code that can panic or loop returns a `GoResult`.
* The key-value binding (`github.com/syumai/workers/cloudflare`) is not part of
  the repository: the handlers take its method table as a parameter.
-/

namespace FizzBuzzApi

/-! ## Results of running Go code -/

/-- Result of running a piece of Go code: a value, a runtime panic, or no
result within the number of loop iterations allowed. -/
inductive GoResult (α : Type) where
  | ok (a : α)
  | panic (msg : String)
  | outOfFuel
deriving DecidableEq, Repr

namespace GoResult

/-- Sequencing: a panic or an exhausted budget ends the run. -/
def bind {α β : Type} (x : GoResult α) (f : α → GoResult β) : GoResult β :=
  match x with
  | ok a => f a
  | panic msg => panic msg
  | outOfFuel => outOfFuel

instance : Monad GoResult where
  pure := ok
  bind := bind

end GoResult

/-- Go `error` values are represented by their message. -/
abbrev Error := String

/-! ## Machine integers -/

/-- The largest `int`, `math.MaxInt64`. -/
def maxInt : Int := 9223372036854775807

/-- The smallest `int`, `math.MinInt64`. -/
def minInt : Int := -9223372036854775808

/-- Two's-complement wrap-around of a result of `int` arithmetic into the 64-bit
range. -/
def wrapInt (x : Int) : Int :=
  (x + 9223372036854775808) % 18446744073709551616 - 9223372036854775808

/-! ## `strconv` and `fmt` -/

/-- The Go remainder `a % b` on `int`: truncated remainder, panicking on a zero
divisor. -/
def rem (a b : Int) : GoResult Int :=
  if b = 0 then .panic "runtime error: integer divide by zero" else .ok (Int.tmod a b)

/-- The function `strconv.Itoa`: the decimal representation of an `int`. -/
def Itoa (i : Int) : String :=
  if i < 0 then "-" ++ Nat.repr i.natAbs else Nat.repr i.natAbs

/-- The call `fmt.Sprint(i)` for a single `int` operand formats it in base ten. -/
def Sprint (i : Int) : String := Itoa i

/-- Value of a run of ASCII decimal digits read left to right, starting from
the accumulator `n`; `none` when a character is not a digit. -/
def parseDigits : List Char → Nat → Option Nat
  | [], n => some n
  | ch :: rest, n =>
    if 48 ≤ ch.toNat ∧ ch.toNat ≤ 57 then parseDigits rest (n * 10 + (ch.toNat - 48)) else none

/-- The value of a signed decimal number as an `int`: outside the range, the nearest
bound and a range error. -/
def saturate (negative : Bool) (n : Nat) : Int × Option Error :=
  if negative then
    if -(n : Int) < minInt then (minInt, some "strconv.Atoi: value out of range")
    else (-(n : Int), none)
  else
    if maxInt < (n : Int) then (maxInt, some "strconv.Atoi: value out of range")
    else ((n : Int), none)

/-- The digits of a number after its sign: at least one decimal digit, anything else
is a syntax error and yields the value `0`. -/
def atoiDigits (negative : Bool) (digits : List Char) : Int × Option Error :=
  match digits with
  | [] => (0, some "strconv.Atoi: invalid syntax")
  | d :: ds =>
    match parseDigits (d :: ds) 0 with
    | none => (0, some "strconv.Atoi: invalid syntax")
    | some n => saturate negative n

/-- The function `strconv.Atoi`: an optional sign followed by at least one decimal digit;
anything else is a syntax error and yields the value `0`.  A number outside the
range of `int` yields the nearest bound and a range error.  The second component
is the error, if any. -/
def Atoi (s : String) : Int × Option Error :=
  match s.data with
  | [] => (0, some "strconv.Atoi: invalid syntax")
  | c :: cs => atoiDigits (decide (c = '-')) (if c = '-' ∨ c = '+' then cs else c :: cs)

/-! ## The sequence generator -/

/-- The loop `for i := 1; i <= limit; i++` of `fizzBuzz`, entered with the current
`i` and `result`; the first argument bounds the number of iterations.  The
increment wraps around as `int` arithmetic does. -/
def fizzBuzzLoop (int1 int2 limit : Int) (str1 str2 : String) :
    Nat → Int → List String → GoResult (List String)
  | 0, _, _ => .outOfFuel
  | fuel + 1, i, result =>
    if i ≤ limit then do
      -- `i%int1 == 0 && i%int2 == 0`, the right operand evaluated only if needed
      let both ← (do
        let r1 ← rem i int1
        if r1 = 0 then (do let r2 ← rem i int2; pure (decide (r2 = 0))) else pure false)
      if both then
        fizzBuzzLoop int1 int2 limit str1 str2 fuel (wrapInt (i + 1)) (result ++ [str1 ++ str2])
      else do
        let r1 ← rem i int1
        if r1 = 0 then
          fizzBuzzLoop int1 int2 limit str1 str2 fuel (wrapInt (i + 1)) (result ++ [str1])
        else do
          let r2 ← rem i int2
          if r2 = 0 then
            fizzBuzzLoop int1 int2 limit str1 str2 fuel (wrapInt (i + 1)) (result ++ [str2])
          else
            fizzBuzzLoop int1 int2 limit str1 str2 fuel (wrapInt (i + 1)) (result ++ [Sprint i])
    else
      .ok result

/-- The function `fizzBuzz`.  For `limit` below `maxInt` the loop body runs once for each `i`
in `1..limit`, so `limit + 1` tests of the loop condition suffice.  For `limit = maxInt`
the condition `i <= limit` holds of every `int` and the loop does not end whatever
the budget: `outOfFuel` then stands for a call that never returns. -/
def fizzBuzz (int1 int2 limit : Int) (str1 str2 : String) : GoResult (List String) :=
  fizzBuzzLoop int1 int2 limit str1 str2 (limit.toNat + 1) 1 []

/-- The element the contract prescribes at position `i`: both labels when both
divisors divide `i`, else the first label, else the second, else `i` in decimal. -/
def expectedElement (int1 int2 : Int) (str1 str2 : String) (i : Nat) : String :=
  if int1 ∣ (i : Int) ∧ int2 ∣ (i : Int) then str1 ++ str2
  else if int1 ∣ (i : Int) then str1
  else if int2 ∣ (i : Int) then str2
  else Nat.repr i

/-! ## Request and response types -/

/-- Request structure for the fizz-buzz parameters. -/
structure FizzBuzzRequest where
  Int1 : Int
  Int2 : Int
  Limit : Int
  Str1 : String
  Str2 : String
deriving DecidableEq, Repr

/-- The three numeric fields are values of `int`, as they are in every request the
program holds. -/
def FizzBuzzRequest.InRange (r : FizzBuzzRequest) : Prop :=
  (-9223372036854775808 ≤ r.Int1 ∧ r.Int1 ≤ 9223372036854775807) ∧
  (-9223372036854775808 ≤ r.Int2 ∧ r.Int2 ≤ 9223372036854775807) ∧
  (-9223372036854775808 ≤ r.Limit ∧ r.Limit ≤ 9223372036854775807)

instance (r : FizzBuzzRequest) : Decidable r.InRange := by
  unfold FizzBuzzRequest.InRange
  infer_instance

/-- Response structure for the fizz-buzz result. -/
structure FizzBuzzResponse where
  Result : List String
deriving DecidableEq, Repr

/-- Response structure for the stats result. -/
structure StatsResponse where
  MostFrequentRequest : FizzBuzzRequest
  Hits : Int
deriving DecidableEq, Repr

/-- What a handler writes as the body: a plain message, or a value handed to
`json.NewEncoder(w).Encode`. -/
inductive Body where
  | text (msg : String)
  | fizzBuzz (resp : FizzBuzzResponse)
  | stats (resp : StatsResponse)
deriving DecidableEq, Repr

/-- The HTTP response a handler produces. -/
structure Response where
  status : Nat
  contentType : Option String
  body : Body
deriving DecidableEq, Repr

/-- The call `http.Error(w, msg, code)`. -/
def httpError (msg : String) (code : Nat) : Response :=
  { status := code, contentType := some "text/plain; charset=utf-8", body := .text (msg ++ "\n") }

/-- The function `handleErr`: status 500 with the message as body (the error is only
logged). -/
def handleErr (msg : String) (_err : Error) : Response :=
  { status := 500, contentType := none, body := .text msg }

/-- Setting the JSON content type and encoding `v`; the status defaults to 200. -/
def jsonResponse (v : Body) : Response :=
  { status := 200, contentType := some "application/json", body := v }

/-! ## `encoding/json` for `FizzBuzzRequest`

`json.Marshal` writes the five fields in declaration order under their tags;
strings are escaped as the encoder does with HTML escaping on.
`json.Unmarshal` reads an object into the struct: member names are matched up to
case folding, unknown members are skipped whatever their value, `null` leaves a
field as it is, and a value of the wrong type or outside the range of `int` is an
error. -/

/-- Lower-case hexadecimal digit. -/
def hexDigit (n : Nat) : Char :=
  if n < 10 then Char.ofNat (48 + n) else Char.ofNat (87 + n)

/-- The six-character escape `\uXXXX` of a code point below `0x10000`. -/
def escapeU (n : Nat) : List Char :=
  ['\\', 'u', hexDigit (n / 4096 % 16), hexDigit (n / 256 % 16), hexDigit (n / 16 % 16),
    hexDigit (n % 16)]

/-- How the encoder writes one character of a string (HTML escaping on, as
`json.Marshal` has it). -/
def escapeChar (c : Char) : List Char :=
  if c = '"' then ['\\', '"']
  else if c = '\\' then ['\\', '\\']
  else if c = Char.ofNat 8 then ['\\', 'b']
  else if c = Char.ofNat 12 then ['\\', 'f']
  else if c = '\n' then ['\\', 'n']
  else if c = '\r' then ['\\', 'r']
  else if c = '\t' then ['\\', 't']
  else if c.toNat < 0x20 ∨ c = '<' ∨ c = '>' ∨ c = '&' ∨ c.toNat = 0x2028 ∨ c.toNat = 0x2029 then
    escapeU c.toNat
  else [c]

/-- A string as a JSON string literal. -/
def quote (s : String) : List Char :=
  '"' :: (s.data.flatMap escapeChar ++ ['"'])

/-- The call `json.Marshal(fizzBuzzReq)`, as a string. -/
def jsonMarshal (r : FizzBuzzRequest) : String :=
  String.mk ("\x7b\"int1\":".data ++ (Itoa r.Int1).data ++ ",\"int2\":".data ++ (Itoa r.Int2).data
    ++ ",\"limit\":".data ++ (Itoa r.Limit).data ++ ",\"str1\":".data ++ quote r.Str1
    ++ ",\"str2\":".data ++ quote r.Str2 ++ "\x7d".data)

/-- Value of a hexadecimal digit. -/
def hexValue (c : Char) : Option Nat :=
  if 48 ≤ c.toNat ∧ c.toNat ≤ 57 then some (c.toNat - 48)
  else if 97 ≤ c.toNat ∧ c.toNat ≤ 102 then some (c.toNat - 87)
  else if 65 ≤ c.toNat ∧ c.toNat ≤ 70 then some (c.toNat - 55)
  else none

/-- Value of four hexadecimal digits. -/
def hex4 (a b c d : Char) : Option Nat :=
  match hexValue a, hexValue b, hexValue c, hexValue d with
  | some x, some y, some z, some w => some (x * 4096 + y * 256 + z * 16 + w)
  | _, _, _, _ => none

/-- The character a two-character escape stands for. -/
def unescape (e : Char) : Option Char :=
  if e = '"' then some '"'
  else if e = '\\' then some '\\'
  else if e = '/' then some '/'
  else if e = 'b' then some (Char.ofNat 8)
  else if e = 'f' then some (Char.ofNat 12)
  else if e = 'n' then some '\n'
  else if e = 'r' then some '\r'
  else if e = 't' then some '\t'
  else none

/-- A high surrogate left without its partner decodes to U+FFFD. -/
def flush (pending : Option Nat) (acc : List Char) : List Char :=
  match pending with
  | none => acc
  | some _ => Char.ofNat 0xFFFD :: acc

/-- Reads a JSON string literal after its opening quote: the decoded string and the
input after the closing quote.  `pending` is a high surrogate escape just read, `acc`
the characters decoded so far, last first. -/
def unquote : List Char → Option Nat → List Char → Option (String × List Char)
  | [], _, _ => none
  | c :: rest, pending, acc =>
    if c = '"' then some (String.mk (flush pending acc).reverse, rest)
    else if c = '\\' then
      match rest with
      | [] => none
      | e :: rest1 =>
        if e = 'u' then
          match rest1 with
          | h1 :: h2 :: h3 :: h4 :: rest2 =>
            match hex4 h1 h2 h3 h4 with
            | none => none
            | some n =>
              match pending with
              | some hi =>
                if 0xDC00 ≤ n ∧ n < 0xE000 then
                  unquote rest2 none
                    (Char.ofNat (0x10000 + (hi - 0xD800) * 0x400 + (n - 0xDC00)) :: acc)
                else if 0xD800 ≤ n ∧ n < 0xDC00 then
                  unquote rest2 (some n) (Char.ofNat 0xFFFD :: acc)
                else unquote rest2 none (Char.ofNat n :: Char.ofNat 0xFFFD :: acc)
              | none =>
                if 0xD800 ≤ n ∧ n < 0xDC00 then unquote rest2 (some n) acc
                else if 0xDC00 ≤ n ∧ n < 0xE000 then
                  unquote rest2 none (Char.ofNat 0xFFFD :: acc)
                else unquote rest2 none (Char.ofNat n :: acc)
          | _ => none
        else
          match unescape e with
          | none => none
          | some ch => unquote rest1 none (ch :: flush pending acc)
    else if c.toNat < 0x20 then none
    else unquote rest none (c :: flush pending acc)

/-- A JSON value as far as the struct is concerned; `other` is `true`, `false`, a number
with a fraction or an exponent, an array or an object. -/
inductive JValue where
  | str (s : String)
  | int (n : Int)
  | null
  | other
deriving DecidableEq, Repr

/-- Whether a character is an ASCII decimal digit. -/
def isDigit (c : Char) : Bool := decide (48 ≤ c.toNat ∧ c.toNat ≤ 57)

/-- Splits off the leading run of decimal digits. -/
def takeDigits : List Char → List Char × List Char
  | [] => ([], [])
  | c :: rest =>
    if isDigit c then ((c :: (takeDigits rest).1), (takeDigits rest).2) else ([], c :: rest)

/-- Input after an optional exponent part, `none` if the exponent has no digits. -/
def skipExponent (cs : List Char) : Option (Bool × List Char) :=
  match cs with
  | e :: rest =>
    if e = 'e' ∨ e = 'E' then
      let rest1 := match rest with
        | s :: rest0 => if s = '+' ∨ s = '-' then rest0 else s :: rest0
        | [] => []
      if (takeDigits rest1).1 = [] then none else some (true, (takeDigits rest1).2)
    else some (false, cs)
  | [] => some (false, [])

/-- Input after an optional fraction part, `none` if the fraction has no digits. -/
def skipFraction (cs : List Char) : Option (Bool × List Char) :=
  match cs with
  | p :: rest =>
    if p = '.' then
      if (takeDigits rest).1 = [] then none else some (true, (takeDigits rest).2)
    else some (false, cs)
  | [] => some (false, [])

/-- Reads a JSON number: an optional minus sign, an integer part without superfluous
leading zero, an optional fraction and exponent.  Only a plain integer literal
yields `JValue.int`. -/
def parseNumber (cs : List Char) : Option (JValue × List Char) :=
  let negative := decide (cs.head? = some '-')
  let cs1 := if negative then cs.tail else cs
  let ds := (takeDigits cs1).1
  match ds with
  | [] => none
  | d :: more =>
    if d = '0' ∧ more ≠ [] then none
    else
      match skipFraction (takeDigits cs1).2 with
      | none => none
      | some (hasFraction, rest1) =>
        match skipExponent rest1 with
        | none => none
        | some (hasExponent, rest2) =>
          if hasFraction ∨ hasExponent then some (.other, rest2)
          else
            match parseDigits ds 0 with
            | none => none
            | some n => some (.int (if negative then -(n : Int) else (n : Int)), rest2)

/-- Skips JSON white space. -/
def skipSpace : List Char → List Char
  | [] => []
  | c :: rest => if c = ' ' ∨ c = '\t' ∨ c = '\r' ∨ c = '\n' then skipSpace rest else c :: rest

/-- Reads one scalar JSON value: a string, a number or a literal name. -/
def parseScalar (cs : List Char) : Option (JValue × List Char) :=
  match cs with
  | [] => none
  | c :: rest =>
    if c = '"' then
      match unquote rest none [] with
      | none => none
      | some (s, rest1) => some (.str s, rest1)
    else if c = '-' ∨ isDigit c then parseNumber cs
    else if "null".data <+: cs then some (.null, cs.drop 4)
    else if "true".data <+: cs then some (.other, cs.drop 4)
    else if "false".data <+: cs then some (.other, cs.drop 5)
    else none

/-- What the scanner expects next while it is inside an array or an object. -/
inductive Expect where
  | value
  | firstElement
  | firstKey
  | key
  | colon
  | next
deriving DecidableEq, Repr

/-- Closing the innermost array or object: the input after it once the outermost
one is closed, `none` otherwise together with what is left open. -/
def closeNested (stack : List Bool) (rest : List Char) :
    Option (List Char) × List Bool :=
  match stack with
  | [] => (none, [])
  | [_] => (some rest, [])
  | _ :: outer => (none, outer)

/-- Scans over an array or object and everything nested in it, checking the syntax:
the input after its closing bracket.  `stack` lists the arrays (`false`) and
objects (`true`) that are open, innermost first; the value is a member of the
top-level object, and the scanner refuses more than 10000 levels.  The first
argument bounds the number of steps. -/
def skipNested : Nat → Expect → List Bool → List Char → Option (List Char)
  | 0, _, _, _ => none
  | fuel + 1, expect, stack, cs =>
    match skipSpace cs with
    | [] => none
    | c :: rest =>
      match expect with
      | .value =>
        if c = '[' then
          if 10000 < stack.length + 2 then none
          else skipNested fuel .firstElement (false :: stack) rest
        else if c = Char.ofNat 123 then
          if 10000 < stack.length + 2 then none
          else skipNested fuel .firstKey (true :: stack) rest
        else
          match parseScalar (c :: rest) with
          | none => none
          | some (_, rest1) => skipNested fuel .next stack rest1
      | .firstElement =>
        if c = ']' then
          match closeNested stack rest with
          | (some out, _) => some out
          | (none, outer) => skipNested fuel .next outer rest
        else skipNested fuel .value stack (c :: rest)
      | .firstKey =>
        if c = Char.ofNat 125 then
          match closeNested stack rest with
          | (some out, _) => some out
          | (none, outer) => skipNested fuel .next outer rest
        else skipNested fuel .key stack (c :: rest)
      | .key =>
        if c = '"' then
          match unquote rest none [] with
          | none => none
          | some (_, rest1) => skipNested fuel .colon stack rest1
        else none
      | .colon => if c = ':' then skipNested fuel .value stack rest else none
      | .next =>
        match stack with
        | [] => none
        | true :: _ =>
          if c = ',' then skipNested fuel .key stack rest
          else if c = Char.ofNat 125 then
            match closeNested stack rest with
            | (some out, _) => some out
            | (none, outer) => skipNested fuel .next outer rest
          else none
        | false :: _ =>
          if c = ',' then skipNested fuel .value stack rest
          else if c = ']' then
            match closeNested stack rest with
            | (some out, _) => some out
            | (none, outer) => skipNested fuel .next outer rest
          else none

/-- Reads one JSON value: a scalar, or an array or object scanned over.  Every step
of the scanner takes a character or is followed by one that does, so twice the
length of the input bounds its steps. -/
def parseValue (cs : List Char) : Option (JValue × List Char) :=
  match cs with
  | [] => none
  | c :: rest =>
    if c = '[' ∨ c = Char.ofNat 123 then
      match skipNested (2 * cs.length + 2) .value [] (c :: rest) with
      | none => none
      | some rest1 => some (.other, rest1)
    else parseScalar (c :: rest)

/-- Case folding of a member name as far as it can reach the letters of the field
names: ASCII letters, the long s and the Kelvin sign. -/
def foldChar (c : Char) : Char :=
  if c.toNat = 0x17F then 's' else if c.toNat = 0x212A then 'k' else c.toLower

/-- Stores a decoded member into the struct.  Field names match up to case folding,
unknown names are ignored, `null` leaves a field as it is, and a value of the
wrong JSON type, or an integer outside the range of `int`, is an error. -/
def setField (r : FizzBuzzRequest) (name : String) (v : JValue) : Option FizzBuzzRequest :=
  let key := String.mk (name.data.map foldChar)
  if key = "int1" then
    match v with
    | .int n => if minInt ≤ n ∧ n ≤ maxInt then some { r with Int1 := n } else none
    | .null => some r
    | _ => none
  else if key = "int2" then
    match v with
    | .int n => if minInt ≤ n ∧ n ≤ maxInt then some { r with Int2 := n } else none
    | .null => some r
    | _ => none
  else if key = "limit" then
    match v with
    | .int n => if minInt ≤ n ∧ n ≤ maxInt then some { r with Limit := n } else none
    | .null => some r
    | _ => none
  else if key = "str1" then
    match v with
    | .str s => some { r with Str1 := s }
    | .null => some r
    | _ => none
  else if key = "str2" then
    match v with
    | .str s => some { r with Str2 := s }
    | .null => some r
    | _ => none
  else some r

/-- Reads the members of an object, positioned at the first member name, up to and
including the closing brace, which must end the input.  The first argument bounds
the number of members; every member takes up at least one character, so the
length of the input is enough. -/
def parseMembers : Nat → List Char → FizzBuzzRequest → Option FizzBuzzRequest
  | 0, _, _ => none
  | fuel + 1, cs, r =>
    match skipSpace cs with
    | [] => none
    | q :: rest =>
      if q = '"' then
        match unquote rest none [] with
        | none => none
        | some (name, rest1) =>
          match skipSpace rest1 with
          | [] => none
          | colon :: rest2 =>
            if colon = ':' then
              match parseValue (skipSpace rest2) with
              | none => none
              | some (v, rest3) =>
                match setField r name v with
                | none => none
                | some r1 =>
                  match skipSpace rest3 with
                  | [] => none
                  | sep :: rest4 =>
                    if sep = ',' then parseMembers fuel rest4 r1
                    else if sep = Char.ofNat 125 then
                      (if skipSpace rest4 = [] then some r1 else none)
                    else none
            else none
      else none

/-- The call `json.Unmarshal([]byte(data), &v)` for a zero-valued `FizzBuzzRequest`. -/
def jsonUnmarshal (data : String) : Except Error FizzBuzzRequest :=
  let zero : FizzBuzzRequest := { Int1 := 0, Int2 := 0, Limit := 0, Str1 := "", Str2 := "" }
  match skipSpace data.data with
  | [] => .error "unexpected end of JSON input"
  | c :: rest =>
    if c = Char.ofNat 123 then
      match skipSpace rest with
      | [] => .error "unexpected end of JSON input"
      | c1 :: rest1 =>
        if c1 = Char.ofNat 125 then
          (if skipSpace rest1 = [] then .ok zero else .error "invalid character after top-level value")
        else
          match parseMembers (data.length + 1) (c1 :: rest1) zero with
          | none => .error "json: cannot unmarshal into Go value of type main.FizzBuzzRequest"
          | some r => .ok r
    else
      match parseScalar (c :: rest) with
      | some (.null, rest1) =>
        if skipSpace rest1 = [] then .ok zero else .error "invalid character after top-level value"
      | _ => .error "json: cannot unmarshal into Go value of type main.FizzBuzzRequest"

/-! ## The key-value binding -/

/-- Options of `KVNamespace.List` that the program sets. -/
structure KVNamespaceListOptions where
  Limit : Int
  Cursor : String
deriving DecidableEq, Repr

/-- One listed key. -/
structure KVNamespaceListKey where
  Name : String
deriving DecidableEq, Repr

/-- One page of a key listing. -/
structure KVNamespaceListResult where
  Keys : List KVNamespaceListKey
  ListComplete : Bool
  Cursor : String
deriving DecidableEq, Repr

/-- The methods of `*cloudflare.KVNamespace` the program calls, over store states `σ`.
`GetString` and `PutString` return the error next to the value because their
callers discard it. -/
structure KVNamespace (σ : Type) where
  GetString : σ → String → String × Option Error
  PutString : σ → String → String → σ × Option Error
  List : σ → KVNamespaceListOptions → Except Error KVNamespaceListResult

/-- A call into the binding, as recorded in a handler's trace. -/
inductive KVCall where
  | newKVNamespace (name : String)
  | getString (key : String)
  | putString (key value : String)
deriving DecidableEq, Repr

/-- Name of the namespace binding. -/
def statsNamespace : String := "STATS"

/-! ## The handlers -/

/-- What running `fizzBuzzHandler` leaves behind: the response, the store, and the
calls it made into the binding, in order. -/
structure Outcome (σ : Type) where
  response : Response
  store : σ
  calls : List KVCall

/-- The function `incrementRequestCount`: reads the count (errors discarded), writes back
the count plus one, in `int` arithmetic (error discarded).  Returns the store after
the write and the two calls made. -/
def incrementRequestCount {σ : Type} (kv : KVNamespace σ) (store : σ) (key : String) :
    σ × List KVCall :=
  let countStr := (kv.GetString store key).1
  let count := (Atoi countStr).1
  ((kv.PutString store key (Itoa (wrapInt (count + 1)))).1,
    [.getString key, .putString key (Itoa (wrapInt (count + 1)))])

/-- The function `fizzBuzzHandler`.  `NewKVNamespace` is the binding constructor, `store` the
state of the namespace, `decoded` the outcome of decoding the request body. -/
def fizzBuzzHandler {σ : Type} (NewKVNamespace : String → Except Error (KVNamespace σ))
    (store : σ) (decoded : Except Error FizzBuzzRequest) : GoResult (Outcome σ) :=
  match decoded with
  | .error err =>
    .ok { response := httpError ("Invalid request body: " ++ err) 400, store := store, calls := [] }
  | .ok fizzBuzzReq =>
    if fizzBuzzReq.Int1 ≤ 0 ∨ fizzBuzzReq.Int2 ≤ 0 ∨ fizzBuzzReq.Limit ≤ 0 then
      .ok { response := httpError "int1, int2, and limit must be positive integers" 400,
            store := store, calls := [] }
    else do
      let result ← fizzBuzz fizzBuzzReq.Int1 fizzBuzzReq.Int2 fizzBuzzReq.Limit
        fizzBuzzReq.Str1 fizzBuzzReq.Str2
      let reqKey := jsonMarshal fizzBuzzReq
      match NewKVNamespace statsNamespace with
      | .error err =>
        pure { response := handleErr "failed to initialize KV" err, store := store,
               calls := [.newKVNamespace statsNamespace] }
      | .ok kv =>
        let after := incrementRequestCount kv store reqKey
        pure { response := jsonResponse (.fizzBuzz { Result := result }), store := after.1,
               calls := .newKVNamespace statsNamespace :: after.2 }

/-- The loop `for _, item := range result.Keys` of `statsHandler`, on the running
`(mostFrequentKey, maxCount)`. -/
def scanKeys {σ : Type} (kv : KVNamespace σ) (store : σ) :
    List KVNamespaceListKey → String × Int → String × Int
  | [], best => best
  | item :: items, (mostFrequentKey, maxCount) =>
    let countStr := (kv.GetString store item.Name).1
    let count := (Atoi countStr).1
    if count > maxCount then scanKeys kv store items (item.Name, count)
    else scanKeys kv store items (mostFrequentKey, maxCount)

/-- The pagination loop `for { ... }` of `statsHandler`: either the response of an early
return, or the final `(mostFrequentKey, maxCount)`.  The first argument bounds the
number of `List` calls. -/
def statsLoop {σ : Type} (kv : KVNamespace σ) (store : σ) :
    Nat → KVNamespaceListOptions → String → Int → GoResult (Except Response (String × Int))
  | 0, _, _, _ => .outOfFuel
  | fuel + 1, opts, mostFrequentKey, maxCount =>
    match kv.List store opts with
    | .error err => .ok (.error (handleErr "failed to list keys in KV" err))
    | .ok result =>
      let best := scanKeys kv store result.Keys (mostFrequentKey, maxCount)
      if result.ListComplete then .ok (.ok best)
      else statsLoop kv store fuel { opts with Cursor := result.Cursor } best.1 best.2

/-- The function `statsHandler`; `fuel` bounds the number of pages it may request. -/
def statsHandler {σ : Type} (NewKVNamespace : String → Except Error (KVNamespace σ))
    (store : σ) (fuel : Nat) : GoResult Response :=
  match NewKVNamespace statsNamespace with
  | .error err => .ok (handleErr "failed to initialize KV" err)
  | .ok kv =>
    match statsLoop kv store fuel { Limit := 1000, Cursor := "" } "" 0 with
    | .panic msg => .panic msg
    | .outOfFuel => .outOfFuel
    | .ok (.error resp) => .ok resp
    | .ok (.ok (mostFrequentKey, maxCount)) =>
      if mostFrequentKey = "" then .ok (httpError "No requests made yet." 404)
      else
        match jsonUnmarshal mostFrequentKey with
        | .error _ => .ok (httpError "failed to decode stats" 500)
        | .ok mostFrequent =>
          .ok (jsonResponse (.stats { MostFrequentRequest := mostFrequent, Hits := maxCount }))

/-! ## A reference store -/

/-- Modelled from the spec: the external key-value store ("get-by-key, put-by-key, and
a paginated list-keys operation (cursor-based, returns a completion flag)"), as
a finite list of key/value pairs with distinct keys, listed in insertion order. -/
structure MemStore where
  entries : List (String × String)
deriving DecidableEq, Repr

/-- The value stored under a key. -/
def MemStore.get (s : MemStore) (key : String) : Option String :=
  match s.entries.find? (fun e => e.1 = key) with
  | some e => some e.2
  | none => none

/-- Writing a value: replaces the value of an existing key, appends a new key. -/
def MemStore.put (s : MemStore) (key value : String) : MemStore :=
  if s.entries.any (fun e => e.1 = key) then
    { entries := s.entries.map (fun e => if e.1 = key then (key, value) else e) }
  else { entries := s.entries ++ [(key, value)] }

/-- One page of keys: the cursor is the decimal offset of the page (empty for the
first page), a page holds at most `Limit` keys. -/
def MemStore.list (s : MemStore) (opts : KVNamespaceListOptions) : KVNamespaceListResult :=
  let offset := (Atoi opts.Cursor).1.toNat
  let next := offset + opts.Limit.toNat
  { Keys := ((s.entries.drop offset).take opts.Limit.toNat).map (fun e => { Name := e.1 }),
    ListComplete := decide (s.entries.length ≤ next),
    Cursor := if s.entries.length ≤ next then "" else Itoa next }

/-- Modelled from the spec: the binding over the reference store, every call
succeeding.  Reading an absent key yields the text the binding makes of the
JavaScript `null`, which is not a number. -/
def memKV : KVNamespace MemStore where
  GetString := fun s key =>
    match s.get key with
    | some v => (v, none)
    | none => ("<null>", none)
  PutString := fun s key value => (s.put key value, none)
  List := fun s opts => .ok (s.list opts)

/-- The count the program reads for a key: the stored text as `Atoi` reads it, an
absent key counting as 0. -/
def MemStore.count (s : MemStore) (key : String) : Int :=
  match s.get key with
  | some v => (Atoi v).1
  | none => 0

/-! ## Describing what a scan meets -/

/-- The count `statsHandler` reads for a listed key: the text `GetString` returns, as `Atoi`
reads it, both errors discarded. -/
def readCount {σ : Type} (kv : KVNamespace σ) (store : σ) (name : String) : Int :=
  (Atoi (kv.GetString store name).1).1

/-- The successive `List` calls of a scan starting with `opts` succeed and return
`pages`: every page but the last is incomplete and hands its cursor to the next
call, the last page is complete. -/
def Scans {σ : Type} (kv : KVNamespace σ) (store : σ) :
    KVNamespaceListOptions → List KVNamespaceListResult → Prop
  | _, [] => False
  | opts, [page] => kv.List store opts = .ok page ∧ page.ListComplete = true
  | opts, page :: next :: pages =>
    kv.List store opts = .ok page ∧ page.ListComplete = false ∧
      Scans kv store { opts with Cursor := page.Cursor } (next :: pages)

/-- The first `n` `List` calls of a scan starting with `opts` succeed with incomplete
pages and the call after them fails. -/
def ListFailsAfter {σ : Type} (kv : KVNamespace σ) (store : σ) :
    Nat → KVNamespaceListOptions → Prop
  | 0, opts => ∃ err, kv.List store opts = .error err
  | n + 1, opts =>
    ∃ page, kv.List store opts = .ok page ∧ page.ListComplete = false ∧
      ListFailsAfter kv store n { opts with Cursor := page.Cursor }

/-- The binding with the errors of `GetString` erased and the returned texts kept. -/
def withoutGetErrors {σ : Type} (kv : KVNamespace σ) : KVNamespace σ :=
  { kv with GetString := fun store key => ((kv.GetString store key).1, none) }

/-! ## Test doubles -/

/-- A binding over a one-state store in which every call fails. -/
def failingKV : KVNamespace Unit where
  GetString := fun _ _ => ("", some "kv: get failed")
  PutString := fun s _ _ => (s, some "kv: put failed")
  List := fun _ _ => .error "kv: list failed"

/-- A read-only binding following a script: `pages` maps the cursor of a `List` call to
the page returned (the call fails for any other cursor), `values` maps a key to
the text `GetString` returns (the call fails, returning the empty text, for any
other key). -/
def scriptedKV (pages : List (String × KVNamespaceListResult)) (values : List (String × String)) :
    KVNamespace Unit where
  GetString := fun _ key =>
    match values.lookup key with
    | some v => (v, none)
    | none => ("", some "kv: get failed")
  PutString := fun s _ _ => (s, some "kv: put failed")
  List := fun _ opts =>
    match pages.lookup opts.Cursor with
    | some page => .ok page
    | none => .error "kv: list failed"

/-- Sample requests. -/
def sampleA : FizzBuzzRequest := { Int1 := 3, Int2 := 5, Limit := 15, Str1 := "Fizz", Str2 := "Buzz" }

/-- A second sample request. -/
def sampleB : FizzBuzzRequest := { Int1 := 2, Int2 := 7, Limit := 20, Str1 := "a<b", Str2 := "\"q\"" }

/-- A third sample request. -/
def sampleC : FizzBuzzRequest := { Int1 := 4, Int2 := 6, Limit := 9, Str1 := "", Str2 := "x" }

/-- First page of a sample scan: `sampleA` and `sampleB`, more to come. -/
def samplePage1 : KVNamespaceListResult :=
  { Keys := [{ Name := jsonMarshal sampleA }, { Name := jsonMarshal sampleB }],
    ListComplete := false, Cursor := "page2" }

/-- Second and last page of the sample scan: `sampleC`. -/
def samplePage2 : KVNamespaceListResult :=
  { Keys := [{ Name := jsonMarshal sampleC }], ListComplete := true, Cursor := "" }

/-- The binding serving the sample scan, `sampleA` with 2 hits, `sampleB` and `sampleC` with 5. -/
def sampleKV : KVNamespace Unit :=
  scriptedKV [("", samplePage1), ("page2", samplePage2)]
    [(jsonMarshal sampleA, "2"), (jsonMarshal sampleB, "5"), (jsonMarshal sampleC, "5")]

/-- The counts behind `sampleKV`. -/
def sampleCount (name : String) : Int := if name = jsonMarshal sampleA then 2 else 5

/-- A binding serving two pages without keys. -/
def emptyKV : KVNamespace Unit :=
  scriptedKV
    [("", { Keys := [], ListComplete := false, Cursor := "page2" }),
     ("page2", { Keys := [], ListComplete := true, Cursor := "" })] []

/-- A binding listing two keys on one page, where reading the key `sampleB` fails. -/
def flakyKV : KVNamespace Unit :=
  scriptedKV
    [("", { Keys := [{ Name := jsonMarshal sampleA }, { Name := jsonMarshal sampleB }],
            ListComplete := true, Cursor := "" })]
    [(jsonMarshal sampleA, "2")]

/-- A binding listing one key whose read fails. -/
def brokenReadKV : KVNamespace Unit :=
  scriptedKV [("", { Keys := [{ Name := jsonMarshal sampleA }], ListComplete := true, Cursor := "" })] []

/-- A binding whose second page cannot be listed. -/
def brokenListKV : KVNamespace Unit :=
  scriptedKV [("", samplePage1)] [(jsonMarshal sampleA, "2"), (jsonMarshal sampleB, "5")]

/-- A binding listing two recorded keys whose stored counts are both `0`. -/
def zeroKV : KVNamespace Unit :=
  scriptedKV
    [("", { Keys := [{ Name := jsonMarshal sampleA }, { Name := jsonMarshal sampleB }],
            ListComplete := true, Cursor := "" })]
    [(jsonMarshal sampleA, "0"), (jsonMarshal sampleB, "0")]

/-- A binding listing two recorded keys, the first holding the largest `int` as its stored
count, the second that number plus one. -/
def saturatedKV : KVNamespace Unit :=
  scriptedKV
    [("", { Keys := [{ Name := jsonMarshal sampleA }, { Name := jsonMarshal sampleB }],
            ListComplete := true, Cursor := "" })]
    [(jsonMarshal sampleA, "9223372036854775807"), (jsonMarshal sampleB, "9223372036854775808")]

/-! ## Proofs: the sequence generator -/

@[simp] theorem GoResult.ok_bind {α β : Type} (a : α) (f : α → GoResult β) :
    (GoResult.ok a >>= f) = f a := rfl

@[simp] theorem GoResult.pure_eq {α : Type} (a : α) :
    (pure a : GoResult α) = GoResult.ok a := rfl

@[simp] theorem GoResult.outOfFuel_bind {α β : Type} (f : α → GoResult β) :
    (GoResult.outOfFuel >>= f) = GoResult.outOfFuel := rfl

@[simp] theorem GoResult.panic_bind {α β : Type} (msg : String) (f : α → GoResult β) :
    (GoResult.panic msg >>= f) = GoResult.panic msg := rfl

theorem rem_of_pos (a b : Int) (ha : 0 ≤ a) (hb : 0 < b) : rem a b = .ok (a % b) := by
  unfold rem
  rw [if_neg (by omega), Int.tmod_eq_emod ha (by omega)]

theorem Sprint_natCast (i : Nat) : Sprint (i : Int) = Nat.repr i := by
  simp [Sprint, Itoa]

/-- Inside the range of `int` nothing wraps. -/
theorem wrapInt_of_range (x : Int) (h1 : minInt ≤ x) (h2 : x ≤ maxInt) : wrapInt x = x := by
  unfold wrapInt
  unfold minInt at h1
  unfold maxInt at h2
  omega

/-- A wrapped result is an `int`. -/
theorem wrapInt_range (x : Int) : minInt ≤ wrapInt x ∧ wrapInt x ≤ maxInt := by
  unfold wrapInt minInt maxInt
  omega

/-- One pass through the loop body appends the prescribed element; below `maxInt` the
increment does not wrap. -/
theorem fizzBuzzLoop_step (int1 int2 limit : Int) (str1 str2 : String)
    (h1 : 0 < int1) (h2 : 0 < int2) (hlim : limit < maxInt) (fuel : Nat) (i : Nat)
    (result : List String) (hi : (i : Int) ≤ limit) :
    fizzBuzzLoop int1 int2 limit str1 str2 (fuel + 1) (i : Int) result =
      fizzBuzzLoop int1 int2 limit str1 str2 fuel ((i : Int) + 1)
        (result ++ [expectedElement int1 int2 str1 str2 i]) := by
  have hw : wrapInt ((i : Int) + 1) = (i : Int) + 1 :=
    wrapInt_of_range _ (by unfold minInt; omega) (by omega)
  rw [fizzBuzzLoop, if_pos hi, rem_of_pos _ _ (by omega) h1, rem_of_pos _ _ (by omega) h2, hw]
  unfold expectedElement
  simp only [Int.dvd_iff_emod_eq_zero, Sprint_natCast]
  by_cases c1 : (i : Int) % int1 = 0 <;> by_cases c2 : (i : Int) % int2 = 0 <;>
    simp [c1, c2]

/-- Loop invariant: with `k` iterations left and more than `k` units of fuel, the loop
returns the accumulated `result` followed by the `k` prescribed elements. -/
theorem fizzBuzzLoop_spec (int1 int2 limit : Int) (str1 str2 : String)
    (h1 : 0 < int1) (h2 : 0 < int2) (hlim : limit < maxInt) :
    ∀ (k fuel i : Nat) (result : List String), (i : Int) + k = limit + 1 → k < fuel →
      fizzBuzzLoop int1 int2 limit str1 str2 fuel (i : Int) result =
        .ok (result ++ (List.range k).map
          (fun j => expectedElement int1 int2 str1 str2 (i + j))) := by
  intro k
  induction k with
  | zero =>
    intro fuel i result hk hf
    obtain ⟨fuel, rfl⟩ : ∃ f, fuel = f + 1 := ⟨fuel - 1, by omega⟩
    rw [fizzBuzzLoop, if_neg (by omega)]
    simp
  | succ k ih =>
    intro fuel i result hk hf
    obtain ⟨fuel, rfl⟩ : ∃ f, fuel = f + 1 := ⟨fuel - 1, by omega⟩
    rw [fizzBuzzLoop_step _ _ _ _ _ h1 h2 hlim _ _ _ (by omega)]
    have := ih fuel (i + 1) (result ++ [expectedElement int1 int2 str1 str2 i])
      (by push_cast; omega) (by omega)
    rw [Nat.cast_succ] at this
    rw [this, List.range_succ_eq_map]
    simp [List.map_map, Function.comp_def, Nat.add_assoc, Nat.add_comm 1]

/-- Closed form of `fizzBuzz` for positive divisors and a bound below `maxInt`: it returns,
and returns the prescribed elements for `1..limit`. -/
theorem fizzBuzz_eq (int1 int2 limit : Int) (str1 str2 : String)
    (h1 : 0 < int1) (h2 : 0 < int2) (hl : 0 ≤ limit) (hlim : limit < maxInt) :
    fizzBuzz int1 int2 limit str1 str2 =
      .ok ((List.range limit.toNat).map
        (fun j => expectedElement int1 int2 str1 str2 (1 + j))) := by
  have h := fizzBuzzLoop_spec int1 int2 limit str1 str2 h1 h2 hlim limit.toNat
    (limit.toNat + 1) 1 [] (by push_cast; omega) (by omega)
  simpa [fizzBuzz] using h

/-- With nonzero divisors no remainder operation of the loop panics, whatever the
signs, the bound and the budget. -/
theorem fizzBuzzLoop_no_panic (int1 int2 limit : Int) (str1 str2 : String)
    (h1 : int1 ≠ 0) (h2 : int2 ≠ 0) :
    ∀ (fuel : Nat) (i : Int) (result : List String) (msg : String),
      fizzBuzzLoop int1 int2 limit str1 str2 fuel i result ≠ .panic msg := by
  intro fuel
  induction fuel with
  | zero => intro i result msg; simp [fizzBuzzLoop]
  | succ fuel ih =>
    intro i result msg
    rw [fizzBuzzLoop]
    by_cases hi : i ≤ limit
    · simp only [if_pos hi, rem, if_neg h1, if_neg h2, GoResult.ok_bind, GoResult.pure_eq]
      by_cases c1 : Int.tmod i int1 = 0 <;> by_cases c2 : Int.tmod i int2 = 0 <;>
        simp [c1, c2, ih]
    · simp [hi]

/-- Below `maxInt` the loop never exhausts a budget larger than the number of
iterations left, whatever the divisors. -/
theorem fizzBuzzLoop_ne_outOfFuel (int1 int2 limit : Int) (str1 str2 : String)
    (hlim : limit < maxInt) :
    ∀ (fuel : Nat) (i : Int) (result : List String), 0 < fuel → minInt ≤ i →
      limit + 1 - i < fuel →
      fizzBuzzLoop int1 int2 limit str1 str2 fuel i result ≠ .outOfFuel := by
  intro fuel
  induction fuel with
  | zero => intro i result h0 _ h; omega
  | succ fuel ih =>
    intro i result _ hmin h
    rw [fizzBuzzLoop]
    by_cases hi : i ≤ limit
    · have hmin1 : minInt ≤ i + 1 := by omega
      have hw : wrapInt (i + 1) = i + 1 := wrapInt_of_range _ hmin1 (by omega)
      have hnext : ∀ r,
          fizzBuzzLoop int1 int2 limit str1 str2 fuel (wrapInt (i + 1)) r ≠ .outOfFuel := by
        intro r
        rw [hw]
        exact ih (i + 1) r (by omega) hmin1 (by omega)
      simp only [if_pos hi, rem]
      by_cases z1 : int1 = 0
      · simp only [z1, if_true]
        exact fun h => by cases h
      · by_cases z2 : int2 = 0
        · by_cases c1 : Int.tmod i int1 = 0 <;> simp [z1, z2, c1]
        · by_cases c1 : Int.tmod i int1 = 0 <;> by_cases c2 : Int.tmod i int2 = 0 <;>
            simp [z1, z2, c1, c2, hnext]
    · simp [hi]

/-- For a bound below `maxInt` the budget `fizzBuzz` gives its loop is never exhausted: the
function ends, in a value or in a panic. -/
theorem fizzBuzz_ne_outOfFuel (int1 int2 limit : Int) (str1 str2 : String)
    (hlim : limit < maxInt) :
    fizzBuzz int1 int2 limit str1 str2 ≠ .outOfFuel :=
  fizzBuzzLoop_ne_outOfFuel int1 int2 limit str1 str2 hlim _ _ _ (by omega)
    (by unfold minInt; omega) (by omega)

/-- With the bound `maxInt` the loop returns for no budget: the condition `i <= limit`
holds of every `int`, and the wrapped increment is an `int` again. -/
theorem fizzBuzzLoop_maxInt_never_returns (int1 int2 : Int) (str1 str2 : String) :
    ∀ (fuel : Nat) (i : Int) (result r : List String), i ≤ maxInt →
      fizzBuzzLoop int1 int2 maxInt str1 str2 fuel i result ≠ .ok r := by
  intro fuel
  induction fuel with
  | zero => intro i result r _; simp [fizzBuzzLoop]
  | succ fuel ih =>
    intro i result r hi
    have hnext : ∀ acc,
        fizzBuzzLoop int1 int2 maxInt str1 str2 fuel (wrapInt (i + 1)) acc ≠ .ok r :=
      fun acc => ih _ acc r (wrapInt_range _).2
    rw [fizzBuzzLoop]
    simp only [if_pos hi, rem]
    by_cases z1 : int1 = 0
    · simp only [z1, if_true]
      exact fun h => by cases h
    · by_cases z2 : int2 = 0
      · by_cases c1 : Int.tmod i int1 = 0 <;> simp [z1, z2, c1, hnext]
      · by_cases c1 : Int.tmod i int1 = 0 <;> by_cases c2 : Int.tmod i int2 = 0 <;>
          simp [z1, z2, c1, c2, hnext]

/-- With nonzero divisors and the bound `maxInt`, `fizzBuzz` does not return. -/
theorem fizzBuzz_maxInt (int1 int2 : Int) (str1 str2 : String)
    (h1 : int1 ≠ 0) (h2 : int2 ≠ 0) :
    fizzBuzz int1 int2 maxInt str1 str2 = .outOfFuel := by
  cases h : fizzBuzz int1 int2 maxInt str1 str2 with
  | ok r =>
    exact absurd h (fizzBuzzLoop_maxInt_never_returns int1 int2 str1 str2 _ 1 [] r
      (by unfold maxInt; omega))
  | panic msg => exact absurd h (fizzBuzzLoop_no_panic int1 int2 maxInt str1 str2 h1 h2 _ _ _ msg)
  | outOfFuel => rfl

/-- Whenever `fizzBuzz` reports an exhausted budget for a bound that is an `int`, its loop
returns for no budget at all. -/
theorem fizzBuzz_outOfFuel_diverges (int1 int2 limit : Int) (str1 str2 : String)
    (hle : limit ≤ maxInt) (h : fizzBuzz int1 int2 limit str1 str2 = .outOfFuel) :
    ∀ (fuel : Nat) (r : List String),
      fizzBuzzLoop int1 int2 limit str1 str2 fuel 1 [] ≠ .ok r := by
  have hmax : limit = maxInt := by
    by_contra hne
    exact fizzBuzz_ne_outOfFuel int1 int2 limit str1 str2 (lt_of_le_of_ne hle hne) h
  subst hmax
  intro fuel r
  exact fizzBuzzLoop_maxInt_never_returns int1 int2 str1 str2 fuel 1 [] r
    (by unfold maxInt; omega)

/-- A zero divisor does make `fizzBuzz` panic as soon as the loop runs once. -/
theorem fizzBuzz_zero_divisor_panics :
    fizzBuzz 0 5 1 "Fizz" "Buzz" = .panic "runtime error: integer divide by zero" ∧
    fizzBuzz 3 0 1 "Fizz" "Buzz" = .panic "runtime error: integer divide by zero" := by
  decide

/-- The four-way choice of the loop body, and its converse when the four candidates
are pairwise distinct. -/
theorem four_way_cases (P Q : Prop) [Decidable P] [Decidable Q] (a b c d : String) :
    (P ∧ Q → (if P ∧ Q then a else if P then b else if Q then c else d) = a) ∧
    (P ∧ ¬ Q → (if P ∧ Q then a else if P then b else if Q then c else d) = b) ∧
    (Q ∧ ¬ P → (if P ∧ Q then a else if P then b else if Q then c else d) = c) ∧
    (¬ P ∧ ¬ Q → (if P ∧ Q then a else if P then b else if Q then c else d) = d) ∧
    ([a, b, c, d].Nodup →
      ((if P ∧ Q then a else if P then b else if Q then c else d) = a ↔ P ∧ Q) ∧
      ((if P ∧ Q then a else if P then b else if Q then c else d) = b ↔ P ∧ ¬ Q) ∧
      ((if P ∧ Q then a else if P then b else if Q then c else d) = c ↔ Q ∧ ¬ P) ∧
      ((if P ∧ Q then a else if P then b else if Q then c else d) = d ↔ ¬ P ∧ ¬ Q)) := by
  by_cases hP : P <;> by_cases hQ : Q <;>
    simp only [hP, hQ, List.nodup_cons, List.mem_cons, List.mem_singleton, not_or] <;>
    simp <;> intros <;> simp_all [eq_comm]

/-- C1 as stated fails at `limit = 9223372036854775807`, the largest `int`: the loop
condition `i <= limit` then holds of every `int`, the increment wraps around, and
`fizzBuzz(3, 5, limit, "Fizz", "Buzz")` returns for no number of iterations. -/
theorem fizzBuzz_maxInt_counterexample :
    (0 : Int) < 9223372036854775807 ∧
    fizzBuzz 3 5 9223372036854775807 "Fizz" "Buzz" = .outOfFuel ∧
    ¬ ∃ (fuel : Nat) (result : List String),
      fizzBuzzLoop 3 5 9223372036854775807 "Fizz" "Buzz" fuel 1 [] = .ok result := by
  refine ⟨by decide, fizzBuzz_maxInt 3 5 "Fizz" "Buzz" (by decide) (by decide), ?_⟩
  rintro ⟨fuel, result, h⟩
  exact fizzBuzzLoop_maxInt_never_returns 3 5 "Fizz" "Buzz" fuel 1 [] result (by decide) h

/-- C1 (amended): for positive `int1`, `int2` and `limit` below the largest `int`, and any two
strings, `fizzBuzz` returns a sequence of exactly `limit` elements whose `i`-th element
(counting from 1) is `str1 ++ str2` when both divisors divide `i`, else `str1` when `int1`
divides `i`, else `str2` when `int2` divides `i`, else `i` in decimal; and
`fizzBuzz(3, 5, 15, "Fizz", "Buzz")` is the familiar fifteen-element sequence. -/
theorem fizzBuzz_contract :
    (∀ (int1 int2 limit : Int) (str1 str2 : String), 0 < int1 → 0 < int2 → 0 < limit →
      limit < 9223372036854775807 →
      ∃ result : List String,
        fizzBuzz int1 int2 limit str1 str2 = .ok result ∧
        (result.length : Int) = limit ∧
        ∀ i : Nat, 1 ≤ i → (i : Int) ≤ limit →
          result[i - 1]? = some
            (if int1 ∣ (i : Int) ∧ int2 ∣ (i : Int) then str1 ++ str2
             else if int1 ∣ (i : Int) then str1
             else if int2 ∣ (i : Int) then str2
             else Nat.repr i)) ∧
    fizzBuzz 3 5 15 "Fizz" "Buzz" =
      .ok ["1", "2", "Fizz", "4", "Buzz", "Fizz", "7", "8", "Fizz", "Buzz", "11", "Fizz",
        "13", "14", "FizzBuzz"] := by
  refine ⟨?_, by decide⟩
  intro int1 int2 limit str1 str2 h1 h2 hl hlim
  refine ⟨_, fizzBuzz_eq int1 int2 limit str1 str2 h1 h2 (by omega) hlim, ?_, ?_⟩
  · simp only [List.length_map, List.length_range]
    omega
  · intro i hi1 hil
    have hlt : i - 1 < limit.toNat := by omega
    rw [List.getElem?_map, List.getElem?_range hlt]
    have e : 1 + (i - 1) = i := by omega
    simp only [Option.map_some', e, expectedElement]

/-- Instance of C1 (amended) at `int1 = 3`, `int2 = 5`, `limit = 15`. -/
theorem fizzBuzz_contract_witness :
    (0 : Int) < 3 ∧ (0 : Int) < 5 ∧ (0 : Int) < 15 ∧ (15 : Int) < 9223372036854775807 ∧
    ∃ result : List String,
      fizzBuzz 3 5 15 "Fizz" "Buzz" = .ok result ∧
      (result.length : Int) = 15 ∧
      ∀ i : Nat, 1 ≤ i → (i : Int) ≤ 15 →
        result[i - 1]? = some
          (if (3 : Int) ∣ (i : Int) ∧ (5 : Int) ∣ (i : Int) then "Fizz" ++ "Buzz"
           else if (3 : Int) ∣ (i : Int) then "Fizz"
           else if (5 : Int) ∣ (i : Int) then "Buzz"
           else Nat.repr i) :=
  ⟨by decide, by decide, by decide, by decide,
    fizzBuzz_contract.1 3 5 15 "Fizz" "Buzz" (by decide) (by decide) (by decide) (by decide)⟩

/-- C2 as stated fails: with `label2` empty, the second element of
`fizzBuzz(2, 3, 2, "a", "")` equals `label1 + label2` although 2 is not divisible by 3; and
with `limit` the largest `int` the call `fizzBuzz(2, 3, limit, "a", "")` does not return, so
there is no sequence to speak of. -/
theorem fizzBuzz_iff_counterexample :
    (∃ result : List String,
      fizzBuzz 2 3 2 "a" "" = .ok result ∧
      ¬ (result[2 - 1]? = some ("a" ++ "") ↔ ((2 : Int) % 2 = 0 ∧ (2 : Int) % 3 = 0))) ∧
    fizzBuzz 2 3 9223372036854775807 "a" "" = .outOfFuel ∧
    ¬ ∃ (fuel : Nat) (result : List String),
      fizzBuzzLoop 2 3 9223372036854775807 "a" "" fuel 1 [] = .ok result := by
  refine ⟨⟨["1", "a"], by decide, by decide⟩,
    fizzBuzz_maxInt 2 3 "a" "" (by decide) (by decide), ?_⟩
  rintro ⟨fuel, result, h⟩
  exact fizzBuzzLoop_maxInt_never_returns 2 3 "a" "" fuel 1 [] result (by decide) h

/-- C2 (amended): for positive `d1`, `d2`, `limit` below the largest `int`, and `i` in
`1..limit`, the `i`-th element of `fizzBuzz` is `label1 + label2` if `i%d1 == 0` and `i%d2 == 0`,
`label1` if only `i%d1 == 0`, `label2` if only `i%d2 == 0`, and the decimal representation of
`i` otherwise; each "if" is an "if and only if" whenever the four candidate strings
are pairwise distinct. -/
theorem fizzBuzz_element_cases (d1 d2 limit : Int) (label1 label2 : String)
    (h1 : 0 < d1) (h2 : 0 < d2) (hl : 0 < limit) (hlim : limit < 9223372036854775807) :
    ∃ result : List String,
      fizzBuzz d1 d2 limit label1 label2 = .ok result ∧
      ∀ i : Nat, 1 ≤ i → (i : Int) ≤ limit →
        ∃ e : String, result[i - 1]? = some e ∧
          ((i : Int) % d1 = 0 ∧ (i : Int) % d2 = 0 → e = label1 ++ label2) ∧
          ((i : Int) % d1 = 0 ∧ (i : Int) % d2 ≠ 0 → e = label1) ∧
          ((i : Int) % d2 = 0 ∧ (i : Int) % d1 ≠ 0 → e = label2) ∧
          ((i : Int) % d1 ≠ 0 ∧ (i : Int) % d2 ≠ 0 → e = Nat.repr i) ∧
          ([label1 ++ label2, label1, label2, Nat.repr i].Nodup →
            (e = label1 ++ label2 ↔ (i : Int) % d1 = 0 ∧ (i : Int) % d2 = 0) ∧
            (e = label1 ↔ (i : Int) % d1 = 0 ∧ (i : Int) % d2 ≠ 0) ∧
            (e = label2 ↔ (i : Int) % d2 = 0 ∧ (i : Int) % d1 ≠ 0) ∧
            (e = Nat.repr i ↔ (i : Int) % d1 ≠ 0 ∧ (i : Int) % d2 ≠ 0)) := by
  refine ⟨_, fizzBuzz_eq d1 d2 limit label1 label2 h1 h2 (by omega) hlim, ?_⟩
  intro i hi1 hil
  have hlt : i - 1 < limit.toNat := by omega
  have e : 1 + (i - 1) = i := by omega
  refine ⟨expectedElement d1 d2 label1 label2 i, ?_, ?_⟩
  · rw [List.getElem?_map, List.getElem?_range hlt]
    simp only [Option.map_some', e]
  · unfold expectedElement
    simp only [Int.dvd_iff_emod_eq_zero]
    exact four_way_cases _ _ _ _ _ _

/-- Instance of C2 (amended) at `d1 = 3`, `d2 = 5`, `limit = 15`. -/
theorem fizzBuzz_element_cases_witness :
    (0 : Int) < 3 ∧ (0 : Int) < 5 ∧ (0 : Int) < 15 ∧ (15 : Int) < 9223372036854775807 ∧
    ∃ result : List String,
      fizzBuzz 3 5 15 "Fizz" "Buzz" = .ok result ∧
      ∀ i : Nat, 1 ≤ i → (i : Int) ≤ 15 →
        ∃ e : String, result[i - 1]? = some e ∧
          ((i : Int) % 3 = 0 ∧ (i : Int) % 5 = 0 → e = "Fizz" ++ "Buzz") ∧
          ((i : Int) % 3 = 0 ∧ (i : Int) % 5 ≠ 0 → e = "Fizz") ∧
          ((i : Int) % 5 = 0 ∧ (i : Int) % 3 ≠ 0 → e = "Buzz") ∧
          ((i : Int) % 3 ≠ 0 ∧ (i : Int) % 5 ≠ 0 → e = Nat.repr i) ∧
          (["Fizz" ++ "Buzz", "Fizz", "Buzz", Nat.repr i].Nodup →
            (e = "Fizz" ++ "Buzz" ↔ (i : Int) % 3 = 0 ∧ (i : Int) % 5 = 0) ∧
            (e = "Fizz" ↔ (i : Int) % 3 = 0 ∧ (i : Int) % 5 ≠ 0) ∧
            (e = "Buzz" ↔ (i : Int) % 5 = 0 ∧ (i : Int) % 3 ≠ 0) ∧
            (e = Nat.repr i ↔ (i : Int) % 3 ≠ 0 ∧ (i : Int) % 5 ≠ 0)) :=
  ⟨by decide, by decide, by decide, by decide,
    fizzBuzz_element_cases 3 5 15 "Fizz" "Buzz" (by decide) (by decide) (by decide)
      (by decide)⟩

/-! ## Proofs: `strconv` -/

/-- The digits of `n` do not depend on the budget or on what is already accumulated. -/
theorem toDigitsCore_eq_append (n : Nat) :
    ∀ (fuel : Nat) (ds : List Char), n < fuel →
      Nat.toDigitsCore 10 fuel n ds = Nat.toDigitsCore 10 (n + 1) n [] ++ ds := by
  induction n using Nat.strong_induction_on with
  | _ n ih =>
    intro fuel ds hf
    obtain ⟨fuel, rfl⟩ : ∃ f, fuel = f + 1 := ⟨fuel - 1, by omega⟩
    simp only [Nat.toDigitsCore]
    by_cases h0 : n / 10 = 0
    · simp [h0]
    · have hlt : n / 10 < n := Nat.div_lt_self (by omega) (by decide)
      simp only [h0, if_false]
      rw [ih (n / 10) hlt fuel _ (by omega), ih (n / 10) hlt n _ hlt]
      simp

theorem toDigits_of_lt (n : Nat) (h : n < 10) : Nat.toDigits 10 n = [Nat.digitChar n] := by
  have h0 : n / 10 = 0 := by omega
  have h1 : n % 10 = n := by omega
  simp [Nat.toDigits, Nat.toDigitsCore, h0, h1]

theorem toDigits_of_ge (n : Nat) (h : 10 ≤ n) :
    Nat.toDigits 10 n = Nat.toDigits 10 (n / 10) ++ [Nat.digitChar (n % 10)] := by
  have h0 : n / 10 ≠ 0 := by omega
  have hlt : n / 10 < n := Nat.div_lt_self (by omega) (by decide)
  rw [Nat.toDigits, Nat.toDigitsCore]
  simp only [h0, if_false]
  rw [toDigitsCore_eq_append (n / 10) n _ hlt, Nat.toDigits]

theorem digitChar_toNat (d : Nat) (h : d < 10) : (Nat.digitChar d).toNat = 48 + d := by
  interval_cases d <;> rfl

theorem parseDigits_append (xs ys : List Char) :
    ∀ n : Nat, parseDigits (xs ++ ys) n = (parseDigits xs n).bind (parseDigits ys) := by
  induction xs with
  | nil => intro n; rfl
  | cons c xs ih =>
    intro n
    simp only [List.cons_append, parseDigits]
    split
    · exact ih _
    · rfl

theorem parseDigits_digitChar (d n : Nat) (h : d < 10) :
    parseDigits [Nat.digitChar d] n = some (n * 10 + d) := by
  have h57 : 48 + d ≤ 57 := by omega
  simp [parseDigits, digitChar_toNat d h, h57]

/-- Reading back the decimal digits of `n` gives `n`. -/
theorem parseDigits_toDigits (n : Nat) : parseDigits (Nat.toDigits 10 n) 0 = some n := by
  induction n using Nat.strong_induction_on with
  | _ n ih =>
    by_cases h : n < 10
    · rw [toDigits_of_lt n h, parseDigits_digitChar n 0 h]; simp
    · rw [toDigits_of_ge n (by omega), parseDigits_append,
        ih (n / 10) (Nat.div_lt_self (by omega) (by decide))]
      simp only [Option.some_bind]
      rw [parseDigits_digitChar _ _ (Nat.mod_lt _ (by decide))]
      congr 1
      omega

/-- Every character of a decimal representation is a digit. -/
theorem toDigits_all_digits (n : Nat) :
    ∀ c ∈ Nat.toDigits 10 n, 48 ≤ c.toNat ∧ c.toNat ≤ 57 := by
  induction n using Nat.strong_induction_on with
  | _ n ih =>
    intro c hc
    by_cases h : n < 10
    · rw [toDigits_of_lt n h, List.mem_singleton] at hc
      subst hc
      rw [digitChar_toNat n h]; omega
    · rw [toDigits_of_ge n (by omega), List.mem_append, List.mem_singleton] at hc
      rcases hc with hc | hc
      · exact ih (n / 10) (Nat.div_lt_self (by omega) (by decide)) c hc
      · subst hc
        rw [digitChar_toNat _ (Nat.mod_lt _ (by decide))]
        have := Nat.mod_lt n (show 0 < 10 by decide)
        omega

theorem toDigits_ne_nil (n : Nat) : Nat.toDigits 10 n ≠ [] := by
  by_cases h : n < 10
  · rw [toDigits_of_lt n h]; simp
  · rw [toDigits_of_ge n (by omega)]; simp

/-- The function `Atoi` reads back what `Itoa` writes for an `int`, without error. -/
theorem Atoi_Itoa (i : Int) (hmin : minInt ≤ i) (hmax : i ≤ maxInt) :
    Atoi (Itoa i) = (i, none) := by
  unfold Itoa
  by_cases hneg : i < 0
  · rw [if_pos hneg]
    have hd : ("-" ++ Nat.repr i.natAbs).data = '-' :: Nat.toDigits 10 i.natAbs := by
      simp [Nat.repr, List.asString, String.data_append]
    unfold Atoi
    rw [hd]
    obtain ⟨d, ds, hds⟩ := List.exists_cons_of_ne_nil (toDigits_ne_nil i.natAbs)
    have hp := parseDigits_toDigits i.natAbs
    rw [hds] at hp
    have hi : -(i.natAbs : Int) = i := by omega
    simp only [true_or, if_true, hds, atoiDigits, hp, saturate, decide_True, hi,
      if_neg (not_lt.mpr hmin)]
  · rw [if_neg hneg]
    have hd : (Nat.repr i.natAbs).data = Nat.toDigits 10 i.natAbs := by
      simp [Nat.repr, List.asString]
    unfold Atoi
    rw [hd]
    obtain ⟨d, ds, hds⟩ := List.exists_cons_of_ne_nil (toDigits_ne_nil i.natAbs)
    have hp := parseDigits_toDigits i.natAbs
    have hdig := toDigits_all_digits i.natAbs d (by rw [hds]; simp)
    rw [hds] at hp
    have hm : d ≠ '-' := by
      intro h; subst h; revert hdig; decide
    have hpl : d ≠ '+' := by
      intro h; subst h; revert hdig; decide
    have hi : (i.natAbs : Int) = i := by omega
    simp only [hds, hm, hpl, or_self, if_false, atoiDigits, hp, saturate, decide_False,
      Bool.false_eq_true, hi, if_neg (not_lt.mpr hmax)]

/-! ## Proofs: the generate handler -/

/-- C3: a decoded request with `int1`, `int2` or `limit` at most 0 is answered with status
400 and no call into the store binding is made (no handle initialisation, no
get, no put); the store is left as it was. -/
theorem fizzBuzzHandler_rejects_nonpositive {σ : Type}
    (NewKVNamespace : String → Except Error (KVNamespace σ)) (store : σ)
    (req : FizzBuzzRequest) (h : req.Int1 ≤ 0 ∨ req.Int2 ≤ 0 ∨ req.Limit ≤ 0) :
    ∃ out : Outcome σ,
      fizzBuzzHandler NewKVNamespace store (.ok req) = .ok out ∧
      out.response = httpError "int1, int2, and limit must be positive integers" 400 ∧
      out.response.status = 400 ∧
      out.calls = [] ∧
      out.store = store := by
  refine ⟨{ response := httpError "int1, int2, and limit must be positive integers" 400,
             store := store, calls := [] }, ?_, rfl, rfl, rfl, rfl⟩
  simp only [fizzBuzzHandler, if_pos h]

/-- Instance of C3: `limit = 0` against the reference store holding one count. -/
theorem fizzBuzzHandler_rejects_nonpositive_witness :
    ((3 : Int) ≤ 0 ∨ (5 : Int) ≤ 0 ∨ (0 : Int) ≤ 0) ∧
    ∃ out : Outcome MemStore,
      fizzBuzzHandler (fun _ => .ok memKV) { entries := [("k", "7")] }
        (.ok { Int1 := 3, Int2 := 5, Limit := 0, Str1 := "Fizz", Str2 := "Buzz" }) = .ok out ∧
      out.response = httpError "int1, int2, and limit must be positive integers" 400 ∧
      out.response.status = 400 ∧
      out.calls = [] ∧
      out.store = { entries := [("k", "7")] } :=
  ⟨by decide,
    fizzBuzzHandler_rejects_nonpositive (fun _ => .ok memKV) { entries := [("k", "7")] }
      { Int1 := 3, Int2 := 5, Limit := 0, Str1 := "Fizz", Str2 := "Buzz" } (by decide)⟩

/-- A valid request whose `limit` is the largest `int` gets no response: `fizzBuzz` does not
return. -/
theorem fizzBuzzHandler_maxInt {σ : Type}
    (NewKVNamespace : String → Except Error (KVNamespace σ)) (store : σ)
    (req : FizzBuzzRequest) (h1 : 0 < req.Int1) (h2 : 0 < req.Int2)
    (hl : req.Limit = maxInt) :
    fizzBuzzHandler NewKVNamespace store (.ok req) = .outOfFuel := by
  have hv : ¬ (req.Int1 ≤ 0 ∨ req.Int2 ≤ 0 ∨ maxInt ≤ 0) := by
    unfold maxInt
    omega
  have hf := fizzBuzz_maxInt req.Int1 req.Int2 req.Str1 req.Str2 (by omega) (by omega)
  simp only [fizzBuzzHandler, hl, if_neg hv, hf, GoResult.outOfFuel_bind]

/-- C8 as stated fails at `limit = 9223372036854775807`, the largest `int`: the request is
valid and the store handle initialises, yet the handler gives no response,
because `fizzBuzz` returns for no number of iterations. -/
theorem fizzBuzzHandler_maxInt_counterexample :
    ((0 : Int) < 3 ∧ (0 : Int) < 5 ∧ (0 : Int) < 9223372036854775807) ∧
    fizzBuzzHandler (fun _ => .ok failingKV) ()
      (.ok { Int1 := 3, Int2 := 5, Limit := 9223372036854775807, Str1 := "Fizz",
             Str2 := "Buzz" }) = .outOfFuel ∧
    ¬ ∃ (fuel : Nat) (result : List String),
      fizzBuzzLoop 3 5 9223372036854775807 "Fizz" "Buzz" fuel 1 [] = .ok result := by
  refine ⟨by decide, fizzBuzzHandler_maxInt _ _ _ (by decide) (by decide) rfl, ?_⟩
  rintro ⟨fuel, result, h⟩
  exact fizzBuzzLoop_maxInt_never_returns 3 5 "Fizz" "Buzz" fuel 1 [] result (by decide) h

/-- C8 (amended): for a valid request with `limit` below the largest `int` whose store handle
initialises, the response is 200 with `result` equal to
`fizzBuzz(int1, int2, limit, str1, str2)`, for every behaviour `kv` of the binding: whether
`GetString` or `PutString` return errors, and whatever they return, status and body are
the same. -/
theorem fizzBuzzHandler_ignores_store_failures {σ : Type}
    (NewKVNamespace : String → Except Error (KVNamespace σ)) (kv : KVNamespace σ) (store : σ)
    (req : FizzBuzzRequest) (h1 : 0 < req.Int1) (h2 : 0 < req.Int2) (hl : 0 < req.Limit)
    (hlim : req.Limit < 9223372036854775807)
    (hinit : NewKVNamespace statsNamespace = .ok kv) :
    ∃ (result : List String) (out : Outcome σ),
      fizzBuzz req.Int1 req.Int2 req.Limit req.Str1 req.Str2 = .ok result ∧
      fizzBuzzHandler NewKVNamespace store (.ok req) = .ok out ∧
      out.response.status = 200 ∧
      out.response.body = .fizzBuzz { Result := result } ∧
      out.response =
        { status := 200, contentType := some "application/json",
          body := .fizzBuzz { Result := result } } := by
  have hv : ¬ (req.Int1 ≤ 0 ∨ req.Int2 ≤ 0 ∨ req.Limit ≤ 0) := by omega
  obtain ⟨result, hf⟩ :
      ∃ result, fizzBuzz req.Int1 req.Int2 req.Limit req.Str1 req.Str2 = .ok result :=
    ⟨_, fizzBuzz_eq req.Int1 req.Int2 req.Limit req.Str1 req.Str2 h1 h2 (by omega) hlim⟩
  refine ⟨result, Outcome.mk (jsonResponse (.fizzBuzz { Result := result }))
    (incrementRequestCount kv store (jsonMarshal req)).1
    (.newKVNamespace statsNamespace :: (incrementRequestCount kv store (jsonMarshal req)).2),
    hf, ?_, rfl, rfl, rfl⟩
  simp only [fizzBuzzHandler, if_neg hv, hf, hinit, GoResult.ok_bind, GoResult.pure_eq]

/-- Instance of C8 (amended) with a binding whose get and put both fail. -/
theorem fizzBuzzHandler_ignores_store_failures_witness :
    (0 : Int) < 3 ∧ (0 : Int) < 5 ∧ (0 : Int) < 15 ∧ (15 : Int) < 9223372036854775807 ∧
    (failingKV.GetString () "k").2 ≠ none ∧ (failingKV.PutString () "k" "1").2 ≠ none ∧
    ∃ (result : List String) (out : Outcome Unit),
      fizzBuzz 3 5 15 "Fizz" "Buzz" = .ok result ∧
      fizzBuzzHandler (fun _ => .ok failingKV) ()
        (.ok { Int1 := 3, Int2 := 5, Limit := 15, Str1 := "Fizz", Str2 := "Buzz" }) = .ok out ∧
      out.response.status = 200 ∧
      out.response.body = .fizzBuzz { Result := result } ∧
      out.response =
        { status := 200, contentType := some "application/json",
          body := .fizzBuzz { Result := result } } :=
  ⟨by decide, by decide, by decide, by decide, by decide, by decide,
    fizzBuzzHandler_ignores_store_failures (fun _ => .ok failingKV) failingKV ()
      { Int1 := 3, Int2 := 5, Limit := 15, Str1 := "Fizz", Str2 := "Buzz" }
      (by decide) (by decide) (by decide) (by decide) rfl⟩

/-- C10: for every decoded request the handler either rejects it with 400 before
`fizzBuzz` is reached, or passes `int1 ≠ 0` and `int2 ≠ 0`, so that no remainder in
`fizzBuzz` divides by zero; in no case does the handler end in a panic. -/
theorem fizzBuzzHandler_no_division_by_zero {σ : Type}
    (NewKVNamespace : String → Except Error (KVNamespace σ)) (store : σ)
    (req : FizzBuzzRequest) :
    ((req.Int1 ≤ 0 ∨ req.Int2 ≤ 0 ∨ req.Limit ≤ 0) →
      fizzBuzzHandler NewKVNamespace store (.ok req) =
        .ok { response := httpError "int1, int2, and limit must be positive integers" 400,
              store := store, calls := [] }) ∧
    ((req.Int1 = 0 ∨ req.Int2 = 0) →
      fizzBuzzHandler NewKVNamespace store (.ok req) =
        .ok { response := httpError "int1, int2, and limit must be positive integers" 400,
              store := store, calls := [] }) ∧
    (¬ (req.Int1 ≤ 0 ∨ req.Int2 ≤ 0 ∨ req.Limit ≤ 0) →
      req.Int1 ≠ 0 ∧ req.Int2 ≠ 0 ∧
      (∀ i : Int, rem i req.Int1 = .ok (Int.tmod i req.Int1) ∧
        rem i req.Int2 = .ok (Int.tmod i req.Int2)) ∧
      ∀ msg : String,
        fizzBuzz req.Int1 req.Int2 req.Limit req.Str1 req.Str2 ≠ .panic msg) ∧
    (∀ msg : String, fizzBuzzHandler NewKVNamespace store (.ok req) ≠ .panic msg) := by
  refine ⟨?_, ?_, ?_, ?_⟩
  · intro h
    simp only [fizzBuzzHandler, if_pos h]
  · intro h
    have h0 : req.Int1 ≤ 0 ∨ req.Int2 ≤ 0 ∨ req.Limit ≤ 0 := by omega
    simp only [fizzBuzzHandler, if_pos h0]
  · intro h
    have h1 : req.Int1 ≠ 0 := by omega
    have h2 : req.Int2 ≠ 0 := by omega
    refine ⟨h1, h2, ?_, ?_⟩
    · intro i
      simp [rem, h1, h2]
    · intro msg
      exact fizzBuzzLoop_no_panic _ _ _ _ _ h1 h2 _ _ _ _
  · intro msg
    by_cases h : req.Int1 ≤ 0 ∨ req.Int2 ≤ 0 ∨ req.Limit ≤ 0
    · simp only [fizzBuzzHandler, if_pos h]
      exact fun h => by cases h
    · simp only [fizzBuzzHandler, if_neg h]
      cases hf : fizzBuzz req.Int1 req.Int2 req.Limit req.Str1 req.Str2 with
      | ok result =>
        simp only [GoResult.ok_bind]
        cases NewKVNamespace statsNamespace <;> simp
      | panic m =>
        exact absurd hf (fizzBuzzLoop_no_panic _ _ _ _ _ (by omega) (by omega) _ _ _ _)
      | outOfFuel => simp

/-- Instance of C10: a request with `int1 = 0` against a binding that always fails. -/
theorem fizzBuzzHandler_no_division_by_zero_witness :
    ((0 : Int) = 0 ∨ (5 : Int) = 0) ∧
    fizzBuzzHandler (fun _ => .ok failingKV) ()
        (.ok { Int1 := 0, Int2 := 5, Limit := 15, Str1 := "Fizz", Str2 := "Buzz" }) =
      .ok { response := httpError "int1, int2, and limit must be positive integers" 400,
            store := (), calls := [] } :=
  ⟨by decide,
    (fizzBuzzHandler_no_division_by_zero (fun _ => .ok failingKV) ()
      { Int1 := 0, Int2 := 5, Limit := 15, Str1 := "Fizz", Str2 := "Buzz" }).2.1 (by decide)⟩

/-! ## Proofs: `encoding/json` -/

theorem hexValue_hexDigit (d : Nat) (h : d < 16) : hexValue (hexDigit d) = some d := by
  interval_cases d <;> rfl

/-- Decoding the four hexadecimal digits of an escape gives the code point back. -/
theorem hex4_escape (n : Nat) (h : n < 65536) :
    hex4 (hexDigit (n / 4096 % 16)) (hexDigit (n / 256 % 16)) (hexDigit (n / 16 % 16))
      (hexDigit (n % 16)) = some n := by
  unfold hex4
  rw [hexValue_hexDigit _ (Nat.mod_lt _ (by decide)), hexValue_hexDigit _ (Nat.mod_lt _ (by decide)),
    hexValue_hexDigit _ (Nat.mod_lt _ (by decide)), hexValue_hexDigit _ (Nat.mod_lt _ (by decide))]
  simp only [Option.some.injEq]
  omega

/-- The decoder reads one encoded character back. -/
theorem unquote_escapeChar (c : Char) (tail acc : List Char) :
    unquote (escapeChar c ++ tail) none acc = unquote tail none (c :: acc) := by
  unfold escapeChar
  split_ifs with h1 h2 hb hf h3 h4 h5 h6
  · subst h1; rw [List.cons_append, unquote.eq_def]; simp [unescape, flush]
  · subst h2; rw [List.cons_append, unquote.eq_def]; simp [unescape, flush]
  · subst hb; rw [List.cons_append, unquote.eq_def]; simp [unescape, flush]
  · subst hf; rw [List.cons_append, unquote.eq_def]; simp [unescape, flush]
  · subst h3; rw [List.cons_append, unquote.eq_def]; simp [unescape, flush]
  · subst h4; rw [List.cons_append, unquote.eq_def]; simp [unescape, flush]
  · subst h5; rw [List.cons_append, unquote.eq_def]; simp [unescape, flush]
  · have hn : c.toNat < 65536 := by
      rcases h6 with h | h | h | h | h | h
      · omega
      · subst h; decide
      · subst h; decide
      · subst h; decide
      · omega
      · omega
    have hs : ¬ (55296 ≤ c.toNat ∧ c.toNat < 56320) ∧ ¬ (56320 ≤ c.toNat ∧ c.toNat < 57344) := by
      rcases h6 with h | h | h | h | h | h
      · omega
      · subst h; decide
      · subst h; decide
      · subst h; decide
      · omega
      · omega
    simp [escapeU, unquote, hex4_escape _ hn, hs.1, hs.2]
  · have h32 : ¬ c.toNat < 32 := fun h => h6 (Or.inl h)
    rw [List.cons_append, unquote.eq_def]
    simp [h1, h2, h32, flush]

/-- The decoder reads an encoded string literal back. -/
theorem unquote_quote (s : List Char) :
    ∀ (tail acc : List Char),
      unquote (s.flatMap escapeChar ++ '"' :: tail) none acc =
        some (String.mk (acc.reverse ++ s), tail) := by
  induction s with
  | nil =>
    intro tail acc
    rw [List.flatMap_nil, List.nil_append, unquote.eq_def]
    simp [flush]
  | cons c s ih =>
    intro tail acc
    rw [List.flatMap_cons, List.append_assoc, unquote_escapeChar, ih]
    simp

theorem takeDigits_append (xs : List Char) (hxs : ∀ c ∈ xs, 48 ≤ c.toNat ∧ c.toNat ≤ 57)
    (c : Char) (hc : isDigit c = false) (rest : List Char) :
    takeDigits (xs ++ c :: rest) = (xs, c :: rest) := by
  induction xs with
  | nil => simp [takeDigits, hc]
  | cons x xs ih =>
    have hx : isDigit x = true := by
      simp only [isDigit, decide_eq_true_eq]
      exact hxs x (List.mem_cons_self _ _)
    have := ih (fun c hc => hxs c (List.mem_cons_of_mem _ hc))
    simp [takeDigits, hx, this]

/-- A decimal representation starts with `0` only for the number 0. -/
theorem toDigits_head_ne_zero (n : Nat) :
    n ≠ 0 → ∀ (d : Char) (more : List Char), Nat.toDigits 10 n = d :: more → d ≠ '0' := by
  induction n using Nat.strong_induction_on with
  | _ n ih =>
    intro hn d more hd
    by_cases h : n < 10
    · rw [toDigits_of_lt n h] at hd
      injection hd with hd _
      subst hd
      intro h0
      have := digitChar_toNat n h
      rw [h0] at this
      have h48 : ('0' : Char).toNat = 48 := rfl
      omega
    · rw [toDigits_of_ge n (by omega)] at hd
      obtain ⟨d1, more1, h1⟩ := List.exists_cons_of_ne_nil (toDigits_ne_nil (n / 10))
      rw [h1] at hd
      injection hd with hd _
      subst hd
      exact ih (n / 10) (Nat.div_lt_self (by omega) (by decide)) (by omega) _ _ h1

/-- The decoder reads a natural number in decimal back, up to a following comma. -/
theorem parseNumber_toDigits (n : Nat) (rest : List Char) :
    (∃ (d : Char) (more : List Char), Nat.toDigits 10 n = d :: more ∧
      (48 ≤ d.toNat ∧ d.toNat ≤ 57) ∧ ¬ (d = '0' ∧ more ≠ [])) ∧
    takeDigits (Nat.toDigits 10 n ++ ',' :: rest) = (Nat.toDigits 10 n, ',' :: rest) := by
  refine ⟨?_, takeDigits_append _ (toDigits_all_digits n) _ (by decide) _⟩
  obtain ⟨d, more, hd⟩ := List.exists_cons_of_ne_nil (toDigits_ne_nil n)
  refine ⟨d, more, hd, toDigits_all_digits n d (by rw [hd]; simp), ?_⟩
  rintro ⟨h0, hmore⟩
  by_cases hn : n = 0
  · subst hn
    rw [toDigits_of_lt 0 (by decide)] at hd
    injection hd with _ hd
    exact hmore hd.symm
  · exact toDigits_head_ne_zero n hn d more hd h0

theorem Itoa_data (i : Int) :
    (Itoa i).data = if i < 0 then '-' :: Nat.toDigits 10 i.natAbs else Nat.toDigits 10 i.natAbs := by
  unfold Itoa
  split <;> simp [Nat.repr, List.asString, String.data_append]

/-- The decoder reads an integer written by the encoder back, up to a following comma. -/
theorem parseScalar_Itoa (i : Int) (rest : List Char) :
    parseScalar ((Itoa i).data ++ ',' :: rest) = some (.int i, ',' :: rest) ∧
    skipSpace ((Itoa i).data ++ ',' :: rest) = (Itoa i).data ++ ',' :: rest := by
  obtain ⟨⟨d, more, hd, hdig, hlead⟩, htake⟩ := parseNumber_toDigits i.natAbs rest
  have hp := parseDigits_toDigits i.natAbs
  have hq : d ≠ '"' := by intro h; subst h; revert hdig; decide
  have hm : d ≠ '-' := by intro h; subst h; revert hdig; decide
  have hsp : ¬ (d = ' ' ∨ d = '\t' ∨ d = '\r' ∨ d = '\n') := by
    rintro (h | h | h | h) <;> (subst h; revert hdig; decide)
  have hisd : isDigit d = true := by simpa [isDigit] using hdig
  rw [Itoa_data]
  by_cases hneg : i < 0
  · have hi : -(i.natAbs : Int) = i := by omega
    simp only [if_pos hneg, List.cons_append]
    refine ⟨?_, by simp [skipSpace]⟩
    simp only [parseScalar, show ¬ ('-' = '"') by decide, if_false, true_or, if_true,
      parseNumber, List.head?_cons, decide_True, List.tail_cons, htake]
    rw [hd] at hp ⊢
    simp [hlead, skipFraction, skipExponent, hp]
    rw [abs_of_neg hneg, neg_neg]
  · have hi : (i.natAbs : Int) = i := by omega
    simp only [if_neg hneg]
    rw [hd] at hp htake ⊢
    refine ⟨?_, by simp [skipSpace, hsp]⟩
    simp only [List.cons_append, parseScalar, hq, if_false, hisd, or_true, if_true, parseNumber,
      List.head?_cons, Option.some.injEq, hm, decide_False, Bool.false_eq_true]
    rw [← List.cons_append, htake]
    simp [hlead, skipFraction, skipExponent, hp]
    omega

/-- The same through `parseValue`: a number does not start like an array or an object. -/
theorem parseValue_Itoa (i : Int) (rest : List Char) :
    parseValue ((Itoa i).data ++ ',' :: rest) = some (.int i, ',' :: rest) ∧
    skipSpace ((Itoa i).data ++ ',' :: rest) = (Itoa i).data ++ ',' :: rest := by
  refine ⟨?_, (parseScalar_Itoa i rest).2⟩
  rw [← (parseScalar_Itoa i rest).1, Itoa_data]
  by_cases hneg : i < 0
  · simp [hneg, parseValue]
  · obtain ⟨d, more, hd⟩ := List.exists_cons_of_ne_nil (toDigits_ne_nil i.natAbs)
    have hdig := toDigits_all_digits i.natAbs d (by rw [hd]; simp)
    have hb : ¬ (d = '[' ∨ d = Char.ofNat 123) := by
      rintro (h | h) <;> (subst h; revert hdig; decide)
    simp only [if_neg hneg, hd, List.cons_append, parseValue, hb, if_false]

theorem unquote_key (key : List Char) (hkey : key.flatMap escapeChar = key) (tail : List Char) :
    unquote (key ++ '"' :: tail) none [] = some (String.mk key, tail) := by
  have h := unquote_quote key tail []
  rw [hkey] at h
  simpa using h

/-- Decoding a member whose value is an integer written by the encoder, followed by
a comma. -/
theorem parseMembers_int (fuel : Nat) (r : FizzBuzzRequest) (key : List Char)
    (hkey : key.flatMap escapeChar = key) (n : Int) (rest : List Char) :
    parseMembers (fuel + 1) ('"' :: (key ++ '"' :: ':' :: ((Itoa n).data ++ ',' :: rest))) r =
      (setField r (String.mk key) (.int n)).bind (parseMembers fuel rest) := by
  rw [parseMembers]
  simp only [skipSpace, show ¬ ('"' = ' ' ∨ '"' = '\t' ∨ '"' = '\r' ∨ '"' = '\n') by decide,
    show ¬ (':' = ' ' ∨ ':' = '\t' ∨ ':' = '\r' ∨ ':' = '\n') by decide,
    show ¬ (',' = ' ' ∨ ',' = '\t' ∨ ',' = '\r' ∨ ',' = '\n') by decide,
    if_false, if_true, unquote_key key hkey, (parseValue_Itoa n rest).1, (parseValue_Itoa n rest).2]
  cases setField r (String.mk key) (.int n) <;> rfl

/-- Decoding a member whose value is a string written by the encoder, followed by
a comma. -/
theorem parseMembers_str (fuel : Nat) (r : FizzBuzzRequest) (key : List Char)
    (hkey : key.flatMap escapeChar = key) (v : String) (rest : List Char) :
    parseMembers (fuel + 1) ('"' :: (key ++ '"' :: ':' :: (quote v ++ ',' :: rest))) r =
      (setField r (String.mk key) (.str v)).bind (parseMembers fuel rest) := by
  rw [parseMembers]
  simp only [skipSpace, show ¬ ('"' = ' ' ∨ '"' = '\t' ∨ '"' = '\r' ∨ '"' = '\n') by decide,
    show ¬ (':' = ' ' ∨ ':' = '\t' ∨ ':' = '\r' ∨ ':' = '\n') by decide,
    show ¬ (',' = ' ' ∨ ',' = '\t' ∨ ',' = '\r' ∨ ',' = '\n') by decide,
    show ¬ ('"' = '[' ∨ '"' = Char.ofNat 123) by decide,
    if_false, if_true, unquote_key key hkey, quote, List.cons_append, List.append_assoc,
    parseValue, parseScalar, unquote_quote, List.reverse_nil, List.nil_append]
  cases setField r (String.mk key) (.str v) <;> rfl

/-- Decoding the last member, a string written by the encoder, followed by the closing
brace. -/
theorem parseMembers_last (fuel : Nat) (r : FizzBuzzRequest) (key : List Char)
    (hkey : key.flatMap escapeChar = key) (v : String) :
    parseMembers (fuel + 1) ('"' :: (key ++ '"' :: ':' :: (quote v ++ [Char.ofNat 125]))) r =
      setField r (String.mk key) (.str v) := by
  rw [parseMembers]
  simp only [skipSpace, show ¬ ('"' = ' ' ∨ '"' = '\t' ∨ '"' = '\r' ∨ '"' = '\n') by decide,
    show ¬ (':' = ' ' ∨ ':' = '\t' ∨ ':' = '\r' ∨ ':' = '\n') by decide,
    show ¬ (Char.ofNat 125 = ' ' ∨ Char.ofNat 125 = '\t' ∨ Char.ofNat 125 = '\r' ∨
      Char.ofNat 125 = '\n') by decide,
    show ¬ (Char.ofNat 125 = ',') by decide,
    show ¬ ('"' = '[' ∨ '"' = Char.ofNat 123) by decide,
    if_false, if_true, unquote_key key hkey, quote, List.cons_append, List.append_assoc,
    parseValue, parseScalar, unquote_quote, List.reverse_nil, List.nil_append,
    List.singleton_append]
  cases setField r (String.mk key) (.str v) <;> rfl

theorem jsonMarshal_data (r : FizzBuzzRequest) :
    (jsonMarshal r).data =
      Char.ofNat 123 :: '"' :: ("int1".data ++ '"' :: ':' :: ((Itoa r.Int1).data ++ ',' ::
        '"' :: ("int2".data ++ '"' :: ':' :: ((Itoa r.Int2).data ++ ',' ::
        '"' :: ("limit".data ++ '"' :: ':' :: ((Itoa r.Limit).data ++ ',' ::
        '"' :: ("str1".data ++ '"' :: ':' :: (quote r.Str1 ++ ',' ::
        '"' :: ("str2".data ++ '"' :: ':' :: (quote r.Str2 ++ [Char.ofNat 125])))))))))) := by
  simp [jsonMarshal]

theorem setField_int1 (r : FizzBuzzRequest) (n : Int) (h : minInt ≤ n ∧ n ≤ maxInt) :
    setField r (String.mk "int1".data) (.int n) = some { r with Int1 := n } := by
  have hk : String.mk ((String.mk "int1".data).data.map foldChar) = "int1" := by decide
  unfold setField
  simp only [hk, if_true, h, and_self]

theorem setField_int2 (r : FizzBuzzRequest) (n : Int) (h : minInt ≤ n ∧ n ≤ maxInt) :
    setField r (String.mk "int2".data) (.int n) = some { r with Int2 := n } := by
  have hk : String.mk ((String.mk "int2".data).data.map foldChar) = "int2" := by decide
  unfold setField
  simp only [hk, show ¬ ("int2" = "int1") by decide, if_false, if_true, h, and_self]

theorem setField_limit (r : FizzBuzzRequest) (n : Int) (h : minInt ≤ n ∧ n ≤ maxInt) :
    setField r (String.mk "limit".data) (.int n) = some { r with Limit := n } := by
  have hk : String.mk ((String.mk "limit".data).data.map foldChar) = "limit" := by decide
  unfold setField
  simp only [hk, show ¬ ("limit" = "int1") by decide,
    show ¬ ("limit" = "int2") by decide, if_false, if_true, h, and_self]

/-- What `json.Marshal` writes for a request whose numbers are `int`s, `json.Unmarshal` reads
back as that request. -/
theorem jsonUnmarshal_jsonMarshal (r : FizzBuzzRequest) (hr : r.InRange) :
    jsonUnmarshal (jsonMarshal r) = .ok r := by
  have hlen : ∃ f, (jsonMarshal r).length + 1 = f + 5 := by
    refine ⟨(jsonMarshal r).length - 4, ?_⟩
    have : 4 ≤ (jsonMarshal r).length := by
      rw [String.length, jsonMarshal_data]
      simp only [List.length_cons, List.length_append]
      omega
    omega
  obtain ⟨f, hf⟩ := hlen
  obtain ⟨hr1, hr2, hr3⟩ := hr
  unfold jsonUnmarshal
  rw [hf, jsonMarshal_data]
  simp only [skipSpace,
    show ¬ (Char.ofNat 123 = ' ' ∨ Char.ofNat 123 = '\t' ∨ Char.ofNat 123 = '\r' ∨
      Char.ofNat 123 = '\n') by decide,
    show ¬ ('"' = ' ' ∨ '"' = '\t' ∨ '"' = '\r' ∨ '"' = '\n') by decide,
    show ¬ ('"' = Char.ofNat 125) by decide, if_false, if_true]
  rw [parseMembers_int _ _ _ (by decide), setField_int1 _ _ hr1, Option.some_bind,
    parseMembers_int _ _ _ (by decide), setField_int2 _ _ hr2, Option.some_bind,
    parseMembers_int _ _ _ (by decide), setField_limit _ _ hr3, Option.some_bind,
    parseMembers_str _ _ _ (by decide), show setField _ (String.mk "str1".data) (.str r.Str1) =
      some _ from rfl, Option.some_bind,
    parseMembers_last _ _ _ (by decide), show setField _ (String.mk "str2".data) (.str r.Str2) =
      some _ from rfl]

theorem jsonMarshal_ne_empty (r : FizzBuzzRequest) : jsonMarshal r ≠ "" := by
  intro h
  have := congrArg String.data h
  rw [jsonMarshal_data] at this
  cases this

/-! ## Proofs: the reference store and the counter -/

theorem memKV_GetString (s : MemStore) (key : String) :
    memKV.GetString s key =
      match s.get key with
      | some v => (v, none)
      | none => ("<null>", none) := rfl

theorem memKV_readCount (s : MemStore) (key : String) : readCount memKV s key = s.count key := by
  unfold readCount MemStore.count
  rw [memKV_GetString]
  cases s.get key
  · decide
  · rfl

theorem scanKeys_cons {σ : Type} (kv : KVNamespace σ) (store : σ) (item : KVNamespaceListKey)
    (items : List KVNamespaceListKey) (k : String) (m : Int) :
    scanKeys kv store (item :: items) (k, m) =
      if readCount kv store item.Name > m then
        scanKeys kv store items (item.Name, readCount kv store item.Name)
      else scanKeys kv store items (k, m) := rfl

theorem scanKeys_append {σ : Type} (kv : KVNamespace σ) (store : σ)
    (xs ys : List KVNamespaceListKey) :
    ∀ best : String × Int,
      scanKeys kv store (xs ++ ys) best = scanKeys kv store ys (scanKeys kv store xs best) := by
  induction xs with
  | nil => intro best; rfl
  | cons x xs ih =>
    rintro ⟨k, m⟩
    simp only [List.cons_append, scanKeys_cons]
    split <;> exact ih _

/-- Keys whose count does not exceed the running maximum leave it as it is. -/
theorem scanKeys_of_le {σ : Type} (kv : KVNamespace σ) (store : σ)
    (items : List KVNamespaceListKey) (k : String) (m : Int)
    (h : ∀ x ∈ items, readCount kv store x.Name ≤ m) :
    scanKeys kv store items (k, m) = (k, m) := by
  induction items with
  | nil => rfl
  | cons x xs ih =>
    have hx := h x (List.mem_cons_self _ _)
    rw [scanKeys_cons, if_neg (by omega)]
    exact ih (fun y hy => h y (List.mem_cons_of_mem _ hy))

/-- When some key exceeds the running maximum, the scan ends on the first key holding
the greatest count. -/
theorem scanKeys_first_greatest {σ : Type} (kv : KVNamespace σ) (store : σ)
    (items : List KVNamespaceListKey) :
    ∀ (k : String) (m : Int), (∃ x ∈ items, m < readCount kv store x.Name) →
      ∃ (before : List KVNamespaceListKey) (item : KVNamespaceListKey)
        (after : List KVNamespaceListKey),
        items = before ++ item :: after ∧
        scanKeys kv store items (k, m) = (item.Name, readCount kv store item.Name) ∧
        m < readCount kv store item.Name ∧
        (∀ x ∈ before, readCount kv store x.Name < readCount kv store item.Name) ∧
        (∀ x ∈ after, readCount kv store x.Name ≤ readCount kv store item.Name) := by
  induction items with
  | nil => rintro k m ⟨x, hx, -⟩; cases hx
  | cons x xs ih =>
    intro k m hex
    rw [scanKeys_cons]
    by_cases hx : readCount kv store x.Name > m
    · rw [if_pos hx]
      by_cases hrest : ∃ y ∈ xs, readCount kv store x.Name < readCount kv store y.Name
      · obtain ⟨before, item, after, hsplit, hscan, hlt, hb, ha⟩ := ih x.Name _ hrest
        refine ⟨x :: before, item, after, by rw [hsplit]; rfl, hscan, by omega, ?_, ha⟩
        intro y hy
        rcases List.mem_cons.mp hy with rfl | hy
        · exact hlt
        · exact hb y hy
      · have hle : ∀ y ∈ xs, readCount kv store y.Name ≤ readCount kv store x.Name := by
          intro y hy
          by_contra hcon
          exact hrest ⟨y, hy, by omega⟩
        refine ⟨[], x, xs, rfl, scanKeys_of_le kv store xs _ _ hle, hx, ?_, hle⟩
        intro y hy
        cases hy
    · rw [if_neg hx]
      have hrest : ∃ y ∈ xs, m < readCount kv store y.Name := by
        obtain ⟨y, hy, hym⟩ := hex
        rcases List.mem_cons.mp hy with rfl | hy
        · exact absurd hym hx
        · exact ⟨y, hy, hym⟩
      obtain ⟨before, item, after, hsplit, hscan, hlt, hb, ha⟩ := ih k m hrest
      refine ⟨x :: before, item, after, by rw [hsplit]; rfl, hscan, hlt, ?_, ha⟩
      intro y hy
      rcases List.mem_cons.mp hy with rfl | hy
      · omega
      · exact hb y hy

/-- A scan that meets `pages` folds `scanKeys` over all their keys in order, given one unit
of fuel for each page. -/
theorem statsLoop_of_scans {σ : Type} (kv : KVNamespace σ) (store : σ)
    (pages : List KVNamespaceListResult) :
    ∀ (opts : KVNamespaceListOptions) (fuel : Nat) (k : String) (m : Int),
      Scans kv store opts pages → pages.length ≤ fuel →
      statsLoop kv store fuel opts k m =
        .ok (.ok (scanKeys kv store (pages.flatMap (fun page => page.Keys)) (k, m))) := by
  induction pages with
  | nil => intro opts fuel k m h; cases h
  | cons page pages ih =>
    intro opts fuel k m hscan hfuel
    obtain ⟨fuel, rfl⟩ : ∃ f, fuel = f + 1 := ⟨fuel - 1, by simp at hfuel; omega⟩
    cases pages with
    | nil =>
      obtain ⟨hlist, hcomplete⟩ := hscan
      simp [statsLoop, hlist, hcomplete]
    | cons next pages =>
      obtain ⟨hlist, hcomplete, hrest⟩ := hscan
      have := ih _ fuel (scanKeys kv store page.Keys (k, m)).1
        (scanKeys kv store page.Keys (k, m)).2 hrest (by simpa using hfuel)
      simp only [statsLoop, hlist, hcomplete, Bool.false_eq_true, if_false, this,
        List.flatMap_cons, scanKeys_append]

/-- A scan whose `List` call fails after `n` pages ends in the early return of that call. -/
theorem statsLoop_of_listFails {σ : Type} (kv : KVNamespace σ) (store : σ) :
    ∀ (n : Nat) (opts : KVNamespaceListOptions) (fuel : Nat) (k : String) (m : Int),
      ListFailsAfter kv store n opts → n < fuel →
      ∃ err, statsLoop kv store fuel opts k m =
        .ok (.error (handleErr "failed to list keys in KV" err)) := by
  intro n
  induction n with
  | zero =>
    intro opts fuel k m h hfuel
    obtain ⟨fuel, rfl⟩ : ∃ f, fuel = f + 1 := ⟨fuel - 1, by omega⟩
    obtain ⟨err, herr⟩ := h
    exact ⟨err, by simp [statsLoop, herr]⟩
  | succ n ih =>
    intro opts fuel k m h hfuel
    obtain ⟨fuel, rfl⟩ : ∃ f, fuel = f + 1 := ⟨fuel - 1, by omega⟩
    obtain ⟨page, hlist, hcomplete, hrest⟩ := h
    obtain ⟨err, herr⟩ := ih _ fuel (scanKeys kv store page.Keys (k, m)).1
      (scanKeys kv store page.Keys (k, m)).2 hrest (by omega)
    exact ⟨err, by simp [statsLoop, hlist, hcomplete, herr]⟩

/-- The handler once the scan has ended on `(mostFrequentKey, maxCount)`. -/
theorem statsHandler_of_scans {σ : Type}
    (NewKVNamespace : String → Except Error (KVNamespace σ)) (kv : KVNamespace σ) (store : σ)
    (pages : List KVNamespaceListResult)
    (hinit : NewKVNamespace statsNamespace = .ok kv)
    (hscan : Scans kv store { Limit := 1000, Cursor := "" } pages)
    (fuel : Nat) (hfuel : pages.length ≤ fuel) :
    statsHandler NewKVNamespace store fuel =
      if (scanKeys kv store (pages.flatMap (fun page => page.Keys)) ("", 0)).1 = "" then
        .ok (httpError "No requests made yet." 404)
      else
        match jsonUnmarshal (scanKeys kv store (pages.flatMap (fun page => page.Keys)) ("", 0)).1 with
        | .error _ => .ok (httpError "failed to decode stats" 500)
        | .ok mostFrequent =>
          .ok (jsonResponse (.stats
            { MostFrequentRequest := mostFrequent,
              Hits := (scanKeys kv store (pages.flatMap (fun page => page.Keys)) ("", 0)).2 })) := by
  simp only [statsHandler, hinit, statsLoop_of_scans kv store pages _ fuel "" 0 hscan hfuel]

/-- The answer of the handler for a key that is the serialisation of a request. -/
theorem statsHandler_of_best {σ : Type}
    (NewKVNamespace : String → Except Error (KVNamespace σ)) (kv : KVNamespace σ) (store : σ)
    (pages : List KVNamespaceListResult)
    (hinit : NewKVNamespace statsNamespace = .ok kv)
    (hscan : Scans kv store { Limit := 1000, Cursor := "" } pages)
    (fuel : Nat) (hfuel : pages.length ≤ fuel) (p : FizzBuzzRequest) (hp : p.InRange) (hits : Int)
    (hbest : scanKeys kv store (pages.flatMap (fun page => page.Keys)) ("", 0) =
      (jsonMarshal p, hits)) :
    statsHandler NewKVNamespace store fuel =
      .ok { status := 200, contentType := some "application/json",
            body := .stats { MostFrequentRequest := p, Hits := hits } } := by
  rw [statsHandler_of_scans NewKVNamespace kv store pages hinit hscan fuel hfuel, hbest]
  simp only [jsonMarshal_ne_empty, if_false, jsonUnmarshal_jsonMarshal p hp]
  rfl

/-- The handler answers 500 when the store handle cannot be initialised and when
listing a page fails, whatever was scanned before. -/
theorem statsHandler_init_or_list_failure {σ : Type}
    (NewKVNamespace : String → Except Error (KVNamespace σ)) (store : σ) :
    (∀ err : Error, NewKVNamespace statsNamespace = .error err →
      ∀ fuel : Nat,
        statsHandler NewKVNamespace store fuel =
          .ok { status := 500, contentType := none, body := .text "failed to initialize KV" }) ∧
    (∀ (kv : KVNamespace σ) (n : Nat), NewKVNamespace statsNamespace = .ok kv →
      ListFailsAfter kv store n { Limit := 1000, Cursor := "" } →
      ∀ fuel : Nat, n < fuel →
        statsHandler NewKVNamespace store fuel =
          .ok { status := 500, contentType := none, body := .text "failed to list keys in KV" }) := by
  refine ⟨?_, ?_⟩
  · intro err hinit fuel
    simp only [statsHandler, hinit]
    rfl
  · intro kv n hinit hfail fuel hfuel
    obtain ⟨err, herr⟩ := statsLoop_of_listFails kv store n _ fuel "" 0 hfail hfuel
    simp only [statsHandler, hinit, herr]
    rfl

/-- The error of `GetString` has no part in the answer: the handler answers as it does when
the same texts are read without error, and a failed read that returns the empty
text counts as 0. -/
theorem statsHandler_ignores_read_errors {σ : Type}
    (NewKVNamespace : String → Except Error (KVNamespace σ)) (store : σ) :
    (∀ kv : KVNamespace σ, NewKVNamespace statsNamespace = .ok kv →
      ∀ fuel : Nat,
        statsHandler NewKVNamespace store fuel =
          statsHandler (fun _ => .ok (withoutGetErrors kv)) store fuel) ∧
    (∀ (kv : KVNamespace σ) (key : String) (err : Error),
      kv.GetString store key = ("", some err) → readCount kv store key = 0) := by
  refine ⟨?_, ?_⟩
  · intro kv hinit fuel
    have hkeys : ∀ (items : List KVNamespaceListKey) (best : String × Int),
        scanKeys (withoutGetErrors kv) store items best = scanKeys kv store items best := by
      intro items
      induction items with
      | nil => intro best; rfl
      | cons x xs ih =>
        rintro ⟨k, m⟩
        rw [scanKeys_cons, scanKeys_cons, ih, ih]
        rfl
    have hloop : ∀ (fuel : Nat) (opts : KVNamespaceListOptions) (k : String) (m : Int),
        statsLoop (withoutGetErrors kv) store fuel opts k m = statsLoop kv store fuel opts k m := by
      intro fuel
      induction fuel with
      | zero => intro opts k m; rfl
      | succ fuel ih =>
        intro opts k m
        simp only [statsLoop, hkeys, ih]
        rfl
    simp only [statsHandler, hinit, hloop]
  · intro kv key err hget
    have hempty : (Atoi "").1 = 0 := by decide
    rw [readCount, hget]
    exact hempty

theorem sampleKV_scans :
    Scans sampleKV () { Limit := 1000, Cursor := "" } [samplePage1, samplePage2] :=
  ⟨rfl, rfl, rfl, rfl⟩

theorem sampleA_inRange : sampleA.InRange := by decide

/-- C5 as stated fails in two ways.  With two distinct recorded keys whose stored counts
are both `0`, all reads succeeding, the handler answers 404 and reports neither a key
nor the greatest count.  With the stored counts `9223372036854775807` and
`9223372036854775808`, the second beyond the largest `int`, the handler reports the first
key with 9223372036854775807 hits, although the second key holds the greatest count. -/
theorem statsHandler_most_frequent_counterexample :
    (jsonMarshal sampleA ≠ jsonMarshal sampleB ∧
      zeroKV.GetString () (jsonMarshal sampleA) = (Itoa 0, none) ∧
      zeroKV.GetString () (jsonMarshal sampleB) = (Itoa 0, none) ∧
      Scans zeroKV () { Limit := 1000, Cursor := "" }
        [{ Keys := [{ Name := jsonMarshal sampleA }, { Name := jsonMarshal sampleB }],
           ListComplete := true, Cursor := "" }] ∧
      statsHandler (fun _ => .ok zeroKV) () 1 =
        .ok { status := 404, contentType := some "text/plain; charset=utf-8",
              body := .text "No requests made yet.\n" }) ∧
    (saturatedKV.GetString () (jsonMarshal sampleA) = (Itoa 9223372036854775807, none) ∧
      saturatedKV.GetString () (jsonMarshal sampleB) = (Itoa 9223372036854775808, none) ∧
      Scans saturatedKV () { Limit := 1000, Cursor := "" }
        [{ Keys := [{ Name := jsonMarshal sampleA }, { Name := jsonMarshal sampleB }],
           ListComplete := true, Cursor := "" }] ∧
      statsHandler (fun _ => .ok saturatedKV) () 1 =
        .ok { status := 200, contentType := some "application/json",
              body := .stats { MostFrequentRequest := sampleA,
                               Hits := 9223372036854775807 } }) := by
  refine ⟨⟨by decide, by decide, by decide, ⟨rfl, rfl⟩, by decide⟩,
    by decide, by decide, ⟨rfl, rfl⟩, ?_⟩
  have hscan : Scans saturatedKV () { Limit := 1000, Cursor := "" }
      [{ Keys := [{ Name := jsonMarshal sampleA }, { Name := jsonMarshal sampleB }],
         ListComplete := true, Cursor := "" }] := ⟨rfl, rfl⟩
  have hbest : scanKeys saturatedKV ()
      ([({ Keys := [{ Name := jsonMarshal sampleA }, { Name := jsonMarshal sampleB }],
           ListComplete := true, Cursor := "" } : KVNamespaceListResult)].flatMap
        (fun page => page.Keys)) ("", 0) = (jsonMarshal sampleA, 9223372036854775807) := by
    decide
  exact statsHandler_of_best (fun _ => .ok saturatedKV) saturatedKV () _ rfl hscan 1 (by decide)
    sampleA sampleA_inRange _ hbest

/-- C5 (amended): when the scan meets one or more pages of keys, every key the
serialisation of a recorded ParameterSet whose stored count is an `int` read
successfully, and the greatest count is at least 1, `statsHandler` answers 200 with
`hits` the greatest count among all keys of all pages and `most_frequent_request` the
key holding it; among several keys with the greatest count it is the first in scan
order.  When no count exceeds 0 it answers 404. -/
theorem statsHandler_most_frequent {σ : Type}
    (NewKVNamespace : String → Except Error (KVNamespace σ)) (kv : KVNamespace σ) (store : σ)
    (pages : List KVNamespaceListResult) (count : String → Int)
    (hinit : NewKVNamespace statsNamespace = .ok kv)
    (hscan : Scans kv store { Limit := 1000, Cursor := "" } pages)
    (hkeys : ∀ item ∈ pages.flatMap (fun page => page.Keys),
      ∃ p : FizzBuzzRequest, p.InRange ∧ item.Name = jsonMarshal p)
    (hget : ∀ item ∈ pages.flatMap (fun page => page.Keys),
      kv.GetString store item.Name = (Itoa (count item.Name), none))
    (hrange : ∀ item ∈ pages.flatMap (fun page => page.Keys),
      -9223372036854775808 ≤ count item.Name ∧ count item.Name ≤ 9223372036854775807) :
    ((∃ item ∈ pages.flatMap (fun page => page.Keys), 1 ≤ count item.Name) →
      ∃ (before : List KVNamespaceListKey) (item : KVNamespaceListKey)
        (after : List KVNamespaceListKey) (p : FizzBuzzRequest),
        pages.flatMap (fun page => page.Keys) = before ++ item :: after ∧
        item.Name = jsonMarshal p ∧
        (∀ x ∈ pages.flatMap (fun page => page.Keys), count x.Name ≤ count item.Name) ∧
        (∀ x ∈ before, count x.Name < count item.Name) ∧
        (∀ x ∈ after, count x.Name ≤ count item.Name) ∧
        ∀ fuel : Nat, pages.length ≤ fuel →
          statsHandler NewKVNamespace store fuel =
            .ok { status := 200, contentType := some "application/json",
                  body := .stats { MostFrequentRequest := p, Hits := count item.Name } }) ∧
    ((∀ item ∈ pages.flatMap (fun page => page.Keys), count item.Name ≤ 0) →
      ∀ fuel : Nat, pages.length ≤ fuel →
        statsHandler NewKVNamespace store fuel =
          .ok { status := 404, contentType := some "text/plain; charset=utf-8",
                body := .text "No requests made yet.\n" }) := by
  have hread : ∀ item ∈ pages.flatMap (fun page => page.Keys),
      readCount kv store item.Name = count item.Name := by
    intro item hitem
    simp only [readCount, hget item hitem,
      Atoi_Itoa _ (hrange item hitem).1 (hrange item hitem).2]
  refine ⟨?_, ?_⟩
  · rintro ⟨first, hfirst, hpos⟩
    have hex : ∃ x ∈ pages.flatMap (fun page => page.Keys), 0 < readCount kv store x.Name :=
      ⟨first, hfirst, by rw [hread first hfirst]; omega⟩
    obtain ⟨before, item, after, hsplit, hbest, -, hb, ha⟩ :=
      scanKeys_first_greatest kv store _ "" 0 hex
    have hmem : ∀ x, x ∈ before ∨ x = item ∨ x ∈ after →
        x ∈ pages.flatMap (fun page => page.Keys) := by
      intro x hx
      rw [hsplit]
      simp only [List.mem_append, List.mem_cons]
      tauto
    have hitem := hread item (hmem item (Or.inr (Or.inl rfl)))
    obtain ⟨p, hr, hp⟩ := hkeys item (hmem item (Or.inr (Or.inl rfl)))
    have hbefore : ∀ x ∈ before, count x.Name < count item.Name := by
      intro x hx
      have := hb x hx
      rwa [hread x (hmem x (Or.inl hx)), hitem] at this
    have hafter : ∀ x ∈ after, count x.Name ≤ count item.Name := by
      intro x hx
      have := ha x hx
      rwa [hread x (hmem x (Or.inr (Or.inr hx))), hitem] at this
    refine ⟨before, item, after, p, hsplit, hp, ?_, hbefore, hafter, ?_⟩
    · intro x hx
      rw [hsplit] at hx
      simp only [List.mem_append, List.mem_cons] at hx
      rcases hx with hx | rfl | hx
      · exact le_of_lt (hbefore x hx)
      · exact le_refl _
      · exact hafter x hx
    · intro fuel hfuel
      rw [hitem] at hbest
      exact statsHandler_of_best NewKVNamespace kv store pages hinit hscan fuel hfuel p hr _
        (hp ▸ hbest)
  · intro hle fuel hfuel
    have hbest := scanKeys_of_le kv store (pages.flatMap (fun page => page.Keys)) "" 0
      (fun x hx => by rw [hread x hx]; exact hle x hx)
    rw [statsHandler_of_scans NewKVNamespace kv store pages hinit hscan fuel hfuel, hbest]
    rfl

/-- Instance of C5 (amended): three keys on two pages, the second and the third sharing
the greatest count. -/
theorem statsHandler_most_frequent_witness :
    Scans sampleKV () { Limit := 1000, Cursor := "" } [samplePage1, samplePage2] ∧
    (∃ item ∈ [samplePage1, samplePage2].flatMap (fun page => page.Keys),
      1 ≤ sampleCount item.Name) ∧
    ∃ (before : List KVNamespaceListKey) (item : KVNamespaceListKey)
      (after : List KVNamespaceListKey) (p : FizzBuzzRequest),
      [samplePage1, samplePage2].flatMap (fun page => page.Keys) = before ++ item :: after ∧
      item.Name = jsonMarshal p ∧
      (∀ x ∈ [samplePage1, samplePage2].flatMap (fun page => page.Keys),
        sampleCount x.Name ≤ sampleCount item.Name) ∧
      (∀ x ∈ before, sampleCount x.Name < sampleCount item.Name) ∧
      (∀ x ∈ after, sampleCount x.Name ≤ sampleCount item.Name) ∧
      ∀ fuel : Nat, [samplePage1, samplePage2].length ≤ fuel →
        statsHandler (fun _ => .ok sampleKV) () fuel =
          .ok { status := 200, contentType := some "application/json",
                body := .stats { MostFrequentRequest := p, Hits := sampleCount item.Name } } :=
  ⟨sampleKV_scans, ⟨{ Name := jsonMarshal sampleA }, by decide, by decide⟩,
    (statsHandler_most_frequent (fun _ => .ok sampleKV) sampleKV () [samplePage1, samplePage2]
      sampleCount rfl sampleKV_scans
      (by
        intro item hitem
        simp only [List.flatMap_cons, List.flatMap_nil, samplePage1, samplePage2, List.append_nil,
          List.cons_append, List.nil_append, List.mem_cons, List.mem_singleton,
          List.not_mem_nil, or_false] at hitem
        rcases hitem with rfl | rfl | rfl
        · exact ⟨sampleA, by decide, rfl⟩
        · exact ⟨sampleB, by decide, rfl⟩
        · exact ⟨sampleC, by decide, rfl⟩)
      (by decide) (by decide)).1
      ⟨{ Name := jsonMarshal sampleA }, by decide, by decide⟩⟩

/-- C9: when every page of the scan is empty and the scan completes, `statsHandler` answers
404 with a plain message: no ParameterSet, no hit count. -/
theorem statsHandler_empty_store {σ : Type}
    (NewKVNamespace : String → Except Error (KVNamespace σ)) (kv : KVNamespace σ) (store : σ)
    (pages : List KVNamespaceListResult)
    (hinit : NewKVNamespace statsNamespace = .ok kv)
    (hscan : Scans kv store { Limit := 1000, Cursor := "" } pages)
    (hempty : ∀ page ∈ pages, page.Keys = []) :
    ∀ fuel : Nat, pages.length ≤ fuel →
      ∃ resp : Response,
        statsHandler NewKVNamespace store fuel = .ok resp ∧
        resp.status = 404 ∧
        resp.body = .text "No requests made yet.\n" := by
  intro fuel hfuel
  have hitems : pages.flatMap (fun page => page.Keys) = [] := by
    rw [List.flatMap_eq_nil_iff]
    exact hempty
  refine ⟨httpError "No requests made yet." 404, ?_, rfl, rfl⟩
  rw [statsHandler_of_scans NewKVNamespace kv store pages hinit hscan fuel hfuel, hitems]
  rfl

/-- Instance of C9: a scan of two empty pages. -/
theorem statsHandler_empty_store_witness :
    Scans emptyKV () { Limit := 1000, Cursor := "" }
      [{ Keys := [], ListComplete := false, Cursor := "page2" },
       { Keys := [], ListComplete := true, Cursor := "" }] ∧
    ∃ resp : Response,
      statsHandler (fun _ => .ok emptyKV) () 2 = .ok resp ∧
      resp.status = 404 ∧
      resp.body = .text "No requests made yet.\n" :=
  ⟨⟨rfl, rfl, rfl, rfl⟩,
    statsHandler_empty_store (fun _ => .ok emptyKV) emptyKV ()
      [{ Keys := [], ListComplete := false, Cursor := "page2" },
       { Keys := [], ListComplete := true, Cursor := "" }]
      rfl ⟨rfl, rfl, rfl, rfl⟩ (by decide) 2 (by decide)⟩

/-- C7, the code at the failing inputs: a store handle that cannot be initialised and a
page that cannot be listed are answered 500, but a failed read of a listed key's
count is not.  With one recorded key whose read fails the handler answers 404
"No requests made yet."; with a second key read successfully it answers 200 and
reports that key, the key whose read failed counting as 0. -/
theorem statsHandler_read_failure_not_fatal :
    statsHandler (fun _ => .error "kv: no binding" : String → Except Error (KVNamespace Unit))
        () 1 =
      .ok { status := 500, contentType := none, body := .text "failed to initialize KV" } ∧
    statsHandler (fun _ => .ok brokenListKV) () 2 =
      .ok { status := 500, contentType := none, body := .text "failed to list keys in KV" } ∧
    ((brokenReadKV.GetString () (jsonMarshal sampleA)).2 = some "kv: get failed" ∧
      statsHandler (fun _ => .ok brokenReadKV) () 1 =
        .ok { status := 404, contentType := some "text/plain; charset=utf-8",
              body := .text "No requests made yet.\n" }) ∧
    ((flakyKV.GetString () (jsonMarshal sampleB)).2 = some "kv: get failed" ∧
      statsHandler (fun _ => .ok flakyKV) () 1 =
        .ok { status := 200, contentType := some "application/json",
              body := .stats { MostFrequentRequest := sampleA, Hits := 2 } }) := by
  refine ⟨rfl, by decide, ⟨by decide, by decide⟩, by decide, ?_⟩
  have hscan : Scans flakyKV () { Limit := 1000, Cursor := "" }
      [{ Keys := [{ Name := jsonMarshal sampleA }, { Name := jsonMarshal sampleB }],
         ListComplete := true, Cursor := "" }] := ⟨rfl, rfl⟩
  have hbest : scanKeys flakyKV ()
      ([({ Keys := [{ Name := jsonMarshal sampleA }, { Name := jsonMarshal sampleB }],
           ListComplete := true, Cursor := "" } : KVNamespaceListResult)].flatMap
        (fun page => page.Keys)) ("", 0) = (jsonMarshal sampleA, 2) := by decide
  exact statsHandler_of_best (fun _ => .ok flakyKV) flakyKV () _ rfl hscan 1 (by decide)
    sampleA sampleA_inRange _ hbest

/-! ## Proofs: one request, then the statistics -/

/-- C6 as stated fails at `limit = 9223372036854775807`, the largest `int`: the ParameterSet is
valid and the store is empty and working, yet the request gets no response,
because `fizzBuzz` returns for no number of iterations; nothing is recorded for
`statsHandler` to report. -/
theorem stats_after_first_request_counterexample :
    ((0 : Int) < 3 ∧ (0 : Int) < 5 ∧ (0 : Int) < 9223372036854775807) ∧
    fizzBuzzHandler (fun _ => .ok memKV) { entries := [] }
      (.ok { Int1 := 3, Int2 := 5, Limit := 9223372036854775807, Str1 := "Fizz",
             Str2 := "Buzz" }) = .outOfFuel ∧
    (¬ ∃ out : Outcome MemStore,
      fizzBuzzHandler (fun _ => .ok memKV) { entries := [] }
        (.ok { Int1 := 3, Int2 := 5, Limit := 9223372036854775807, Str1 := "Fizz",
               Str2 := "Buzz" }) = .ok out) ∧
    ¬ ∃ (fuel : Nat) (result : List String),
      fizzBuzzLoop 3 5 9223372036854775807 "Fizz" "Buzz" fuel 1 [] = .ok result := by
  have h := fizzBuzzHandler_maxInt (fun _ => .ok memKV) ({ entries := [] } : MemStore)
    { Int1 := 3, Int2 := 5, Limit := 9223372036854775807, Str1 := "Fizz", Str2 := "Buzz" }
    (by decide) (by decide) rfl
  refine ⟨by decide, h, ?_, ?_⟩
  · rintro ⟨out, hout⟩
    rw [h] at hout
    cases hout
  · rintro ⟨fuel, result, hres⟩
    exact fizzBuzzLoop_maxInt_never_returns 3 5 "Fizz" "Buzz" fuel 1 [] result (by decide) hres

/-- C6 (amended): starting from the empty reference store, one `fizzBuzzHandler` request with a
valid request `p` whose `limit` is below the largest `int` is answered 200 and leaves the
single key `json.Marshal(p)` with the text `1`; that key decodes back to `p`, and
`statsHandler` then answers 200 with `most_frequent_request` equal to `p` and `hits` equal
to 1.  The hypothesis `hp` says that the numbers of `p` are values of `int`. -/
theorem stats_after_first_request (p : FizzBuzzRequest) (hp : p.InRange)
    (h1 : 0 < p.Int1) (h2 : 0 < p.Int2) (hl : 0 < p.Limit)
    (hlim : p.Limit < 9223372036854775807) :
    ∃ out : Outcome MemStore,
      fizzBuzzHandler (fun _ => .ok memKV) { entries := [] } (.ok p) = .ok out ∧
      out.response.status = 200 ∧
      out.store = { entries := [(jsonMarshal p, "1")] } ∧
      jsonUnmarshal (jsonMarshal p) = .ok p ∧
      out.store.count (jsonMarshal p) = 1 ∧
      ∀ fuel : Nat, 1 ≤ fuel →
        statsHandler (fun _ => .ok memKV) out.store fuel =
          .ok { status := 200, contentType := some "application/json",
                body := .stats { MostFrequentRequest := p, Hits := 1 } } := by
  have hv : ¬ (p.Int1 ≤ 0 ∨ p.Int2 ≤ 0 ∨ p.Limit ≤ 0) := by omega
  obtain ⟨result, hf⟩ : ∃ result, fizzBuzz p.Int1 p.Int2 p.Limit p.Str1 p.Str2 = .ok result :=
    ⟨_, fizzBuzz_eq p.Int1 p.Int2 p.Limit p.Str1 p.Str2 h1 h2 (by omega) hlim⟩
  have hstore : (incrementRequestCount memKV { entries := [] } (jsonMarshal p)).1 =
      { entries := [(jsonMarshal p, "1")] } := by
    have hget : MemStore.get { entries := [] } (jsonMarshal p) = none := rfl
    have hatoi : (Atoi "<null>").1 = 0 := by decide
    have hitoa : Itoa (wrapInt (0 + 1)) = "1" := by decide
    simp only [incrementRequestCount, memKV_GetString, hget, hatoi, hitoa]
    rfl
  have hcount : MemStore.count { entries := [(jsonMarshal p, "1")] } (jsonMarshal p) = 1 := by
    simp [MemStore.count, MemStore.get]
    decide
  refine ⟨{ response := jsonResponse (.fizzBuzz { Result := result }),
            store := { entries := [(jsonMarshal p, "1")] },
            calls := .newKVNamespace statsNamespace ::
              (incrementRequestCount memKV { entries := [] } (jsonMarshal p)).2 },
    ?_, rfl, rfl, jsonUnmarshal_jsonMarshal p hp, hcount, ?_⟩
  · simp only [fizzBuzzHandler, if_neg hv, hf, GoResult.ok_bind, GoResult.pure_eq, hstore]
  · intro fuel hfuel
    have hscan : Scans memKV ({ entries := [(jsonMarshal p, "1")] } : MemStore)
        { Limit := 1000, Cursor := "" }
        [{ Keys := [{ Name := jsonMarshal p }], ListComplete := true, Cursor := "" }] :=
      ⟨rfl, rfl⟩
    have hbest : scanKeys memKV ({ entries := [(jsonMarshal p, "1")] } : MemStore)
        ([({ Keys := [{ Name := jsonMarshal p }], ListComplete := true, Cursor := "" } :
          KVNamespaceListResult)].flatMap (fun page => page.Keys)) ("", 0) =
          (jsonMarshal p, 1) := by
      simp only [List.flatMap_cons, List.flatMap_nil, List.append_nil]
      rw [scanKeys_cons, memKV_readCount, hcount]
      rfl
    exact statsHandler_of_best (fun _ => .ok memKV) memKV _ _ rfl hscan fuel
      (by simpa using hfuel) p hp 1 hbest

/-- Instance of C6 (amended) at the request `(3, 5, 15, "Fizz", "Buzz")`. -/
theorem stats_after_first_request_witness :
    (sampleA.InRange ∧ 0 < sampleA.Int1 ∧ 0 < sampleA.Int2 ∧ 0 < sampleA.Limit ∧
      sampleA.Limit < 9223372036854775807) ∧
    ∃ out : Outcome MemStore,
      fizzBuzzHandler (fun _ => .ok memKV) { entries := [] } (.ok sampleA) = .ok out ∧
      out.response.status = 200 ∧
      out.store = { entries := [(jsonMarshal sampleA, "1")] } ∧
      jsonUnmarshal (jsonMarshal sampleA) = .ok sampleA ∧
      out.store.count (jsonMarshal sampleA) = 1 ∧
      ∀ fuel : Nat, 1 ≤ fuel →
        statsHandler (fun _ => .ok memKV) out.store fuel =
          .ok { status := 200, contentType := some "application/json",
                body := .stats { MostFrequentRequest := sampleA, Hits := 1 } } :=
  ⟨by decide,
    stats_after_first_request sampleA (by decide) (by decide) (by decide) (by decide)
      (by decide)⟩

end FizzBuzzApi
